import Mathlib

/-!
Verification development for the `spectralPhoton` repository
(`hst/spectrify.py`): photon-table spectral annotation for the HST COS and
STIS instruments.

The source operates on numpy float64 arrays.  We embed the float values that
the algorithms actually distinguish as an inductive type `F` over `ℚ`
(finite value, +inf, -inf, NaN) with the IEEE-754 rules the code relies on
(NaN propagation, comparisons with NaN evaluating to false, `inf/0 = inf`,
`0/0 = NaN`).  Fallible code paths (Python exceptions) are embedded as
`Except Err`.  The unbounded `while` loop of `__lya_trace` is embedded with
an explicit fuel parameter; fuel exhaustion models non-termination.
-/

namespace Spectrify

/-- Embedded IEEE-style scalar: NaN, signed infinities, or a finite rational. -/
inductive F where
  | nan  : F
  | inf  : F
  | ninf : F
  | fin  : ℚ → F
deriving DecidableEq, Repr

namespace F

/-- IEEE subtraction as used by the source (numpy float64 `-`). -/
def sub : F → F → F
  | nan, _ => nan
  | _, nan => nan
  | fin a, fin b => fin (a - b)
  | fin _, inf => ninf
  | fin _, ninf => inf
  | inf, fin _ => inf
  | ninf, fin _ => ninf
  | inf, inf => nan
  | inf, ninf => inf
  | ninf, inf => ninf
  | ninf, ninf => nan

/-- IEEE addition. -/
def add : F → F → F
  | nan, _ => nan
  | _, nan => nan
  | fin a, fin b => fin (a + b)
  | fin _, inf => inf
  | fin _, ninf => ninf
  | inf, fin _ => inf
  | ninf, fin _ => ninf
  | inf, inf => inf
  | inf, ninf => nan
  | ninf, inf => nan
  | ninf, ninf => ninf

/-- IEEE multiplication (`inf * 0 = NaN`). -/
def mul : F → F → F
  | nan, _ => nan
  | _, nan => nan
  | fin a, fin b => fin (a * b)
  | fin a, inf => if a = 0 then nan else if 0 < a then inf else ninf
  | fin a, ninf => if a = 0 then nan else if 0 < a then ninf else inf
  | inf, fin b => if b = 0 then nan else if 0 < b then inf else ninf
  | ninf, fin b => if b = 0 then nan else if 0 < b then ninf else inf
  | inf, inf => inf
  | inf, ninf => ninf
  | ninf, inf => ninf
  | ninf, ninf => inf

/-- IEEE division (`x/0 = ±inf` for `x ≠ 0`, `0/0 = NaN`, `inf/inf = NaN`,
`fin/inf = 0`).  Zeroes are unsigned in this model (`inf/0 = inf`), matching
the sign numpy produces for the expressions the source evaluates. -/
def div : F → F → F
  | nan, _ => nan
  | _, nan => nan
  | fin a, fin b =>
      if b = 0 then (if a = 0 then nan else if 0 < a then inf else ninf)
      else fin (a / b)
  | inf, fin b => if b < 0 then ninf else inf
  | ninf, fin b => if b < 0 then inf else ninf
  | fin _, inf => fin 0
  | fin _, ninf => fin 0
  | inf, inf => nan
  | inf, ninf => nan
  | ninf, inf => nan
  | ninf, ninf => nan

/-- IEEE absolute value. -/
def abs : F → F
  | nan => nan
  | inf => inf
  | ninf => inf
  | fin a => fin |a|

/-- IEEE strict less-than as a Bool: any comparison with NaN is false. -/
def ltB : F → F → Bool
  | nan, _ => false
  | _, nan => false
  | fin a, fin b => decide (a < b)
  | fin _, inf => true
  | fin _, ninf => false
  | inf, _ => false
  | ninf, inf => true
  | ninf, fin _ => true
  | ninf, ninf => false

/-- IEEE `≤` as a Bool: any comparison with NaN is false. -/
def leB : F → F → Bool
  | nan, _ => false
  | _, nan => false
  | fin a, fin b => decide (a ≤ b)
  | fin _, inf => true
  | fin _, ninf => false
  | inf, inf => true
  | inf, fin _ => false
  | inf, ninf => false
  | ninf, _ => true

/-- IEEE `>` as a Bool. -/
def gtB (a b : F) : Bool := ltB b a

/-- Is this a finite value? -/
def isFin : F → Bool
  | fin _ => true
  | _ => false

/-- Extract the finite value (0 for non-finite). -/
def toQ : F → ℚ
  | fin q => q
  | _ => 0

theorem sub_nan (v : F) : v.sub nan = nan := by cases v <;> rfl

theorem isFin_toQ {v : F} (h : v.isFin = true) : v = fin v.toQ := by
  cases v <;> simp_all [isFin, toQ]

theorem abs_fin (a : ℚ) : (fin a).abs = fin |a| := rfl

end F

/-! ## List helpers -/

/-- In-range `getD` commutes with `map`, for any defaults. -/
theorem getD_map_lt {α β : Type} (f : α → β) (l : List α) (j : ℕ) (d : β) (d2 : α)
    (h : j < l.length) : (l.map f).getD j d = f (l.getD j d2) := by
  induction l generalizing j with
  | nil => simp at h
  | cons a t ih =>
    cases j with
    | zero => rfl
    | succ j => simpa using ih j (by simpa using h)

/-- In-range `getD` of a `List.range` map. -/
theorem getD_range_map {β : Type} (f : ℕ → β) (n j : ℕ) (d : β) (h : j < n) :
    ((List.range n).map f).getD j d = f j := by
  rw [getD_map_lt f (List.range n) j d 0 (by simpa using h)]
  congr 1
  induction n generalizing j with
  | zero => omega
  | succ n ih =>
    rw [List.range_succ]
    rcases Nat.lt_or_ge j n with h2 | h2
    · rw [List.getD_append _ _ _ _ (by simpa using h2)]
      exact ih j h2
    · have : j = n := by omega
      subst this
      simp [List.getD_append_right, List.getD]

/-- In-range `getD` of a `zipWith`. -/
theorem getD_zipWith_lt {α β γ : Type} (f : α → β → γ) (l1 : List α) (l2 : List β)
    (j : ℕ) (d : γ) (d1 : α) (d2 : β) (h1 : j < l1.length) (h2 : j < l2.length) :
    (List.zipWith f l1 l2).getD j d = f (l1.getD j d1) (l2.getD j d2) := by
  induction l1 generalizing l2 j with
  | nil => simp at h1
  | cons a t ih =>
    cases l2 with
    | nil => simp at h2
    | cons b t2 =>
      cases j with
      | zero => rfl
      | succ j => simpa using ih t2 j (by simpa using h1) (by simpa using h2)

/-- In-range `getD` of a `zip`. -/
theorem getD_zip_lt {α β : Type} (l1 : List α) (l2 : List β)
    (j : ℕ) (d : α × β) (d1 : α) (d2 : β) (h1 : j < l1.length) (h2 : j < l2.length) :
    (List.zip l1 l2).getD j d = (l1.getD j d1, l2.getD j d2) := by
  exact getD_zipWith_lt Prod.mk l1 l2 j d d1 d2 h1 h2

/-! ## `np.argmin`

`np.argmin` scans left to right keeping the first strict minimum; on meeting
a NaN it returns that NaN's index (NaN propagation).  Used at
`spectrify.py:66` (`order = np.argmin(abs(xdisps), 0)`) and
`spectrify.py:140` (`line = np.argmin(abs(xdisp), 0)`). -/

/-- Scan tail of the array: `i` is the index of the head of `rest` in the
full array, `(bi, bv)` the current best index/value. -/
def argminFGo : List F → ℕ → ℕ → F → ℕ
  | [], _, bi, _ => bi
  | v :: rest, i, bi, bv =>
      if v = F.nan then i
      else if F.ltB v bv then argminFGo rest (i + 1) i v
      else argminFGo rest (i + 1) bi bv

/-- `np.argmin` over a 1-d array (`0` on the empty array, which numpy
rejects; never reached by the annotators on nonempty order lists). -/
def argminF : List F → ℕ
  | [] => 0
  | v :: rest => if v = F.nan then 0 else argminFGo rest 1 0 v

/-- Full characterisation of the scan on NaN-free (all-finite) input. -/
theorem argminFGo_spec (qs : List ℚ) : ∀ (i bi : ℕ) (b : ℚ), bi < i →
    (argminFGo (qs.map F.fin) i bi (F.fin b) = bi
        ∧ (∀ k, k < qs.length → b ≤ qs.getD k 0))
    ∨ (∃ k, k < qs.length ∧ argminFGo (qs.map F.fin) i bi (F.fin b) = i + k
        ∧ qs.getD k 0 < b
        ∧ (∀ k2, k2 < qs.length → qs.getD k 0 ≤ qs.getD k2 0)
        ∧ (∀ k2, k2 < k → qs.getD k 0 < qs.getD k2 0)) := by
  induction qs with
  | nil =>
    intro i bi b _
    left
    exact ⟨rfl, by intro k hk; simp at hk⟩
  | cons q qs ih =>
    intro i bi b hbi
    have hne : F.fin q ≠ F.nan := by simp
    by_cases hlt : q < b
    · -- new best is (i, q)
      have hstep : argminFGo ((q :: qs).map F.fin) i bi (F.fin b)
          = argminFGo (qs.map F.fin) (i + 1) i (F.fin q) := by
        simp [argminFGo, F.ltB, hlt]
      rcases ih (i + 1) i q (by omega) with ⟨heq, hmin⟩ | ⟨k, hk, heq, hlt2, hmin, hfirst⟩
      · right
        refine ⟨0, by simp, ?_, by simpa using hlt, ?_, ?_⟩
        · rw [hstep, heq]; omega
        · intro k2 hk2
          cases k2 with
          | zero => simp
          | succ k2 => simpa using hmin k2 (by simpa using hk2)
        · intro k2 hk2; omega
      · right
        refine ⟨k + 1, by simpa using hk, ?_, ?_, ?_, ?_⟩
        · rw [hstep, heq]; omega
        · simpa using lt_trans hlt2 hlt
        · intro k2 hk2
          cases k2 with
          | zero => simpa using le_of_lt hlt2
          | succ k2 => simpa using hmin k2 (by simpa using hk2)
        · intro k2 hk2
          cases k2 with
          | zero => simpa using hlt2
          | succ k2 => simpa using hfirst k2 (by omega)
    · -- best is kept
      have hble : b ≤ q := le_of_not_lt hlt
      have hstep : argminFGo ((q :: qs).map F.fin) i bi (F.fin b)
          = argminFGo (qs.map F.fin) (i + 1) bi (F.fin b) := by
        simp [argminFGo, F.ltB, hlt]
      rcases ih (i + 1) bi b (by omega) with ⟨heq, hmin⟩ | ⟨k, hk, heq, hlt2, hmin, hfirst⟩
      · left
        refine ⟨by rw [hstep, heq], ?_⟩
        intro k2 hk2
        cases k2 with
        | zero => simpa using hble
        | succ k2 => simpa using hmin k2 (by simpa using hk2)
      · right
        refine ⟨k + 1, by simpa using hk, ?_, ?_, ?_, ?_⟩
        · rw [hstep, heq]; omega
        · simpa using hlt2
        · intro k2 hk2
          cases k2 with
          | zero => simpa using le_of_lt (lt_of_lt_of_le hlt2 hble)
          | succ k2 => simpa using hmin k2 (by simpa using hk2)
        · intro k2 hk2
          cases k2 with
          | zero => simpa using lt_of_lt_of_le hlt2 hble
          | succ k2 => simpa using hfirst k2 (by omega)

/-- On a nonempty all-finite array, `np.argmin` returns an in-range index
achieving the minimum, and every strictly earlier entry is strictly larger
(ties are broken by the first index). -/
theorem argminF_fin_spec (qs : List ℚ) (hne : qs ≠ []) :
    argminF (qs.map F.fin) < qs.length
    ∧ (∀ i, i < qs.length →
        qs.getD (argminF (qs.map F.fin)) 0 ≤ qs.getD i 0)
    ∧ (∀ i, i < argminF (qs.map F.fin) →
        qs.getD i 0 > qs.getD (argminF (qs.map F.fin)) 0) := by
  match qs with
  | [] => exact absurd rfl hne
  | q0 :: rest =>
    have hstep : argminF ((q0 :: rest).map F.fin) = argminFGo (rest.map F.fin) 1 0 (F.fin q0) := by
      simp [argminF]
    rcases argminFGo_spec rest 1 0 q0 (by omega) with ⟨heq, hmin⟩ | ⟨k, hk, heq, hlt2, hmin, hfirst⟩
    · rw [hstep, heq]
      refine ⟨by simp, ?_, ?_⟩
      · intro i hi
        cases i with
        | zero => simp
        | succ i => simpa using hmin i (by simpa using hi)
      · intro i hi; omega
    · rw [hstep, heq, Nat.add_comm 1 k]
      refine ⟨by simpa using hk, ?_, ?_⟩
      · intro i hi
        cases i with
        | zero => simpa using le_of_lt hlt2
        | succ i =>
          have : (rest.getD k 0 : ℚ) ≤ rest.getD i 0 := hmin i (by simpa using hi)
          simpa using this
      · intro i hi
        cases i with
        | zero => simpa using hlt2
        | succ i =>
          have : (rest.getD k 0 : ℚ) < rest.getD i 0 := hfirst i (by omega)
          simpa using this

/-! ## numpy scalar reductions (`np.median`, `np.var`) and grids

External numpy routines, modelled from their documented semantics on the
inputs the source feeds them: `np.median` of an empty array is NaN (with a
RuntimeWarning, which is not an exception); numpy's sort places NaN last. -/

/-- Comparison used by numpy's sort: finite values ascending, NaN last. -/
def sortLeB : F → F → Bool
  | _, F.nan => true
  | F.nan, _ => false
  | a, b => F.leB a b

/-- Insertion step for sorting. -/
def insertF (v : F) : List F → List F
  | [] => [v]
  | w :: rest => if sortLeB v w then v :: w :: rest else w :: insertF v rest

/-- numpy ascending sort (insertion sort model, NaN last). -/
def sortF : List F → List F
  | [] => []
  | v :: rest => insertF v (sortF rest)

/-- `np.median`: NaN on the empty array, middle element (odd length) or the
mean of the two middle elements (even length) of the sorted array. -/
def medianF (l : List F) : F :=
  let s := sortF l
  let n := s.length
  if n = 0 then F.nan
  else if n % 2 = 1 then s.getD (n / 2) F.nan
  else F.div (F.add (s.getD (n / 2 - 1) F.nan) (s.getD (n / 2) F.nan)) (F.fin 2)

/-- `np.var` (population variance): NaN on the empty array. -/
def varQ (l : List ℚ) : F :=
  if l.length = 0 then F.nan
  else
    let n : ℚ := l.length
    let m := (l.foldl (· + ·) 0) / n
    F.fin ((l.foldl (fun acc v => acc + (v - m) ^ 2) 0) / n)

/-- `np.arange(start, stop, step)` for positive rational step. -/
def arangeQ (start stop step : ℚ) : List ℚ :=
  let n : ℤ := ((stop - start) / step).ceil
  (List.range n.toNat).map (fun k => start + k * step)

/-- `midpts(bins)` from the external `mypy.my_numpy` module.
Modelled from the spec: midpoints of consecutive bin edges
((bin-midpoint, median) pairs of section 4.1). -/
def midpts (bins : List ℚ) : List ℚ :=
  List.zipWith (fun a b => (a + b) / 2) bins bins.tail

/-! ## `scipy.interpolate.interp1d`

External library, modelled from its documented contract as instantiated by
`spectrify.py:130-135`: `bounds_error=False, fill_value=np.nan`, so a query
outside `[x[0], x[-1]]` evaluates to NaN; in-domain queries interpolate
piecewise-linearly (default kind) or to the nearest grid point
(`'nearest'`, ties at a midpoint going to the left point). -/

/-- Piecewise-linear interpolation over consecutive (x, y) sample pairs;
the query is known to be `≥` the first x. -/
def interpSegLin : List (ℚ × ℚ) → ℚ → F
  | [], _ => F.nan
  | [p], q => if q = p.1 then F.fin p.2 else F.nan
  | p1 :: p2 :: rest, q =>
      if q ≤ p2.1 then
        F.fin (p1.2 + (p2.2 - p1.2) * (q - p1.1) / (p2.1 - p1.1))
      else interpSegLin (p2 :: rest) q

/-- `interp1d(xs, ys, bounds_error=False, fill_value=np.nan)` (linear). -/
def interp1dLin (xs ys : List ℚ) (q : ℚ) : F :=
  match xs.head?, xs.getLast? with
  | some lo, some hi =>
      if q < lo ∨ hi < q then F.nan else interpSegLin (xs.zip ys) q
  | _, _ => F.nan

/-- Nearest-neighbour selection over consecutive (x, y) sample pairs. -/
def interpSegNear : List (ℚ × ℚ) → ℚ → F
  | [], _ => F.nan
  | [p], _ => F.fin p.2
  | p1 :: p2 :: rest, q =>
      if q ≤ (p1.1 + p2.1) / 2 then F.fin p1.2 else interpSegNear (p2 :: rest) q

/-- `interp1d(xs, ys, 'nearest', bounds_error=False, fill_value=np.nan)`. -/
def interp1dNear (xs ys : List ℚ) (q : ℚ) : F :=
  match xs.head?, xs.getLast? with
  | some lo, some hi =>
      if q < lo ∨ hi < q then F.nan else interpSegNear (xs.zip ys) q
  | _, _ => F.nan

/-! ## numpy float-to-int cast -/

/-- The value numpy's unsafe float64 → int64 cast produces for non-finite
input on the reference platform (x86 `cvttsd2si`): `INT64_MIN`. -/
def nanIntCast : ℤ := -(2 ^ 63)

/-- numpy's unsafe float64 → int64 cast, as triggered by
`dq[ind] = dqinterp[l](x[ind])` at `spectrify.py:150` where `dq` is an int
array: finite values truncate toward zero, non-finite values become
`INT64_MIN`. -/
def intCastF : F → ℤ
  | F.fin q => Int.tdiv q.num q.den
  | _ => nanIntCast

/-! ## numpy global random generator

External library state, threaded explicitly.  `np.random.seed(0)` resets the
global generator; `np.random.random(shape)` draws the next `shape` variates
in `[0, 1)`.  The generator is modelled as a deterministic stream indexed by
(seed, position); the exact Mersenne-Twister float values are not
reproduced, only the contract the source relies on: determinism in
(seed, position) and range `[0, 1)`. -/

structure NPRandomState where
  seed : ℕ
  pos : ℕ
deriving DecidableEq, Repr

/-- `np.random.seed(s)`. -/
def npSeed (_ : NPRandomState) (s : ℕ) : NPRandomState := ⟨s, 0⟩

/-- The value of draw number `i` after seeding with `seed` (model stream). -/
def npRandomValue (seed i : ℕ) : ℚ := ((seed + 17 * i + 3) % 64 : ℕ) / 64

/-- `np.random.random(n)`: the drawn values. -/
def npDrawList (g : NPRandomState) (n : ℕ) : List ℚ :=
  (List.range n).map (fun k => npRandomValue g.seed (g.pos + k))

/-- Generator state after drawing `n` variates. -/
def npAfter (g : NPRandomState) (n : ℕ) : NPRandomState := ⟨g.seed, g.pos + n⟩

theorem npRandomValue_nonneg (seed i : ℕ) : 0 ≤ npRandomValue seed i := by
  unfold npRandomValue
  positivity

theorem npRandomValue_lt_one (seed i : ℕ) : npRandomValue seed i < 1 := by
  unfold npRandomValue
  rw [div_lt_one (by norm_num)]
  have h : (seed + 17 * i + 3) % 64 < 64 := Nat.mod_lt _ (by norm_num)
  exact_mod_cast h

/-! ## `__lya_trace` (`spectrify.py:191-204`)

`divvy` from the external `mypy.my_numpy` module is modelled from the spec:
"select samples whose w falls in `line_window`" and "re-select samples whose
y falls within the shrunken window" (section 4.2) — a half-open interval
selection `lo ≤ key < hi` on the designated row.  The `while` loop carries a
fuel parameter; fuel exhaustion (`none`) models non-termination.  The list
returned alongside the result records every denominator of the convergence
test `abs(ytrace - ytrace_old)/ytrace > 1e-4` in evaluation order. -/

/-- `divvy(cnts, lya_range)`: samples whose w lies in `[wlo, whi)`.
NaN wavelengths fail both comparisons and are dropped. -/
def lyaSelect (w y : List F) : List (F × F) :=
  (w.zip y).filter
    (fun p => F.leB (F.fin (2429 / 2)) p.1 && F.ltB p.1 (F.fin (6086 / 5)))

/-- The convergence test `abs(ytrace - ytrace_old)/ytrace > 1e-4`. -/
def lyaTest (yold ycur : F) : Bool :=
  F.gtB (F.div (F.abs (F.sub ycur yold)) ycur) (F.fin (1 / 10000))

/-- The iterative narrowing loop.  Each call evaluates the test once (its
denominator `ycur` is logged); on `True` it halves `dy`, re-selects samples
with y in `[ytrace - dy, ytrace + dy)`, and recomputes the median. -/
def lyaLoopGo : F → F → ℚ → List (F × F) → ℕ → Option F × List F
  | yold, ycur, _, _, 0 =>
      if lyaTest yold ycur then (none, [ycur]) else (some ycur, [ycur])
  | yold, ycur, dy, sel, fuel' + 1 =>
      if lyaTest yold ycur then
        let dy' := dy / 2
        let sel' := sel.filter
          (fun p => F.leB (F.sub ycur (F.fin dy')) p.2
              && F.ltB p.2 (F.add ycur (F.fin dy')))
        let next := lyaLoopGo ycur (medianF (sel'.map Prod.snd)) dy' sel' fuel'
        (next.1, ycur :: next.2)
      else (some ycur, [ycur])

/-- `__lya_trace` run: final centroid (or `none` if the loop did not
terminate within `fuel` iterations) and the denominator log. -/
def lyaRunFull (fuel : ℕ) (w y : List F) (ymax : ℚ) : Option F × List F :=
  let sel := lyaSelect w y
  let ytrace := medianF (sel.map Prod.snd)
  lyaLoopGo F.inf ytrace (ymax / 2) sel fuel

/-- The denominators of every evaluated convergence test of a
`__lya_trace` run. -/
def lyaDenoms (fuel : ℕ) (w y : List F) (ymax : ℚ) : List F :=
  (lyaRunFull fuel w y ymax).2

/-- `__lya_trace(w, y, ymax)`: the per-sample residuals `y - ytrace`. -/
def lyaTrace (fuel : ℕ) (w y : List F) (ymax : ℚ) : Option (List F) :=
  match (lyaRunFull fuel w y ymax).1 with
  | none => none
  | some c => some (y.map (fun v => F.sub v c))

/-- The first logged denominator is the centroid the first test divides by. -/
theorem lyaLoopGo_denoms_head (yold ycur : F) (dy : ℚ) (sel : List (F × F))
    (fuel : ℕ) : ycur ∈ (lyaLoopGo yold ycur dy sel fuel).2 := by
  cases fuel with
  | zero =>
    unfold lyaLoopGo
    by_cases h : lyaTest yold ycur <;> simp [h]
  | succ fuel' =>
    unfold lyaLoopGo
    by_cases h : lyaTest yold ycur <;> simp [h]

/-! ## `__median_trace` (`spectrify.py:170-189`)

`divvy(cnts, bins)` (external `mypy.my_numpy`) is modelled from the spec:
"partition the x-domain into contiguous bins of `bin_width`" (section 4.1),
one group per bin with `edge_i ≤ x < edge_{i+1}`.  `np.polyfit(x, y, 1, w)`
(external numpy) is modelled from its documented objective — minimise
`sum (w_i * (y_i - f(x_i)))^2` — via the closed-form weighted normal
equations; the claims never depend on the fitted values. -/

/-- Sum of a list of embedded floats. -/
def sumF (l : List F) : F := l.foldl F.add (F.fin 0)

/-- `np.polyfit(xs, ys, 1, w=ws)`: weighted least-squares line, returned as
(slope, intercept). -/
def polyfitW (xs : List ℚ) (ys ws : List F) : F × F :=
  let u := ws.map (fun w => F.mul w w)
  let xF := xs.map F.fin
  let Su := sumF u
  let Sx := sumF (List.zipWith F.mul u xF)
  let Sy := sumF (List.zipWith F.mul u ys)
  let Sxx := sumF (List.zipWith F.mul u (xF.map (fun v => F.mul v v)))
  let Sxy := sumF (List.zipWith F.mul (List.zipWith F.mul u xF) ys)
  let d := F.sub (F.mul Su Sxx) (F.mul Sx Sx)
  (F.div (F.sub (F.mul Su Sxy) (F.mul Sx Sy)) d,
   F.div (F.sub (F.mul Sxx Sy) (F.mul Sx Sxy)) d)

/-- `np.polyval((slope, intercept), x)`. -/
def polyvalF (p : F × F) (xq : ℚ) : F := F.add (F.mul p.1 (F.fin xq)) p.2

/-- `__median_trace(x, y, Npix, binfac)`: bin the samples by x, fit a
weighted line through the per-bin medians, and return `y - polyval(p, x)`.
Bins with ≤ 1 sample get variance +inf, hence weight 0. -/
def medianTrace (x y : List ℚ) (Npix binfac : ℚ) : List F :=
  let bins := arangeQ 0 (Npix + 1) binfac
  let nb := bins.length - 1
  let groups := (List.range nb).map (fun i =>
    ((x.zip y).filter
      (fun p => decide (bins.getD i 0 ≤ p.1) && decide (p.1 < bins.getD (i + 1) 0))).map
      Prod.snd)
  let meds := groups.map (fun grp => medianF (grp.map F.fin))
  let Ns : List ℚ := groups.map (fun grp => (grp.length : ℚ))
  let sig2 := (groups.zip Ns).map
    (fun p => if p.2 ≤ 1 then F.inf else varQ p.1)
  let ws := (Ns.zip sig2).map (fun p => F.div (F.fin p.1) p.2)
  let p := polyfitW (midpts bins) meds ws
  (y.zip x).map (fun q => F.sub (F.fin q.1) (polyvalF p q.2))

theorem medianTrace_length (x y : List ℚ) (Npix binfac : ℚ)
    (hlen : x.length = y.length) :
    (medianTrace x y Npix binfac).length = y.length := by
  simp [medianTrace, hlen]

theorem lyaTrace_length (fuel : ℕ) (w y : List F) (ymax : ℚ) (r : List F)
    (h : lyaTrace fuel w y ymax = some r) : r.length = y.length := by
  unfold lyaTrace at h
  cases hr : (lyaRunFull fuel w y ymax).1 with
  | none => rw [hr] at h; simp at h
  | some c =>
    rw [hr] at h
    simp only [Option.some.injEq] at h
    rw [← h]
    simp

/-! ## Python exceptions -/

/-- The exceptions the annotators can raise.  `typeErrorNotCallable` is the
TypeError Python raises for `raise NotImplemented(...)` at
`spectrify.py:98` — `NotImplemented` is a constant, not an exception class,
so calling it fails.  `diverged` models non-termination of the
`__lya_trace` loop (fuel exhaustion). -/
inductive Err where
  | notImplementedError (msg : String)
  | typeErrorNotCallable
  | unboundLocalError (name : String)
  | keyError (key : String)
  | diverged
deriving DecidableEq, Repr

/-! ## `spectrifyCOS` (`spectrify.py:24-83`)

`utils.x1d_epera_solution` is an external collaborator (spec section 6):
its result is modelled as a per-photon function of wavelength and order.
`utils.append_cols` is external; the embedding returns the arrays handed to
it.  A single EVENTS extension is modelled (the loop body). -/

structure COSInput where
  /-- `tag[0].header['segment']` -/
  segment : String
  /-- `tag[0].header['detector']` -/
  det : String
  /-- `xh['SP_LOC_' + seg]` for each x1d segment row (NUV). -/
  nuvTraces : List ℚ
  /-- `x1d[1].header['SP_LOC_' + segment[-1]]` (FUV). -/
  spLoc : ℚ
  /-- `x1d[1].header['SP_OFF_' + segment[-1]]` (FUV). -/
  spOff : ℚ
  /-- `td['time']` -/
  time : List ℚ
  /-- `td['xfull']` -/
  xfull : List ℚ
  /-- `td['yfull']` -/
  yfull : List ℚ
  /-- `td['wavelength']` -/
  wavelength : List ℚ
  /-- `th['talen2']` -/
  talen2 : ℚ
  /-- `th['talen3']` -/
  talen3 : ℚ
deriving DecidableEq, Repr

/-- The arrays appended by `utils.append_cols(t, ['order','xdisp','epera'], ...)`. -/
structure COSColumns where
  order : List ℤ
  xdisp : List F
  epera : List F
deriving DecidableEq, Repr

/-- The NUV trace disambiguation (`spectrify.py:60-68`): the per-trace
signed distance matrix `xdisps`, the per-photon `np.argmin` over its
absolute values, and the gathered signed distances. -/
def cosNuvXdisps (inp : COSInput) : List (List ℚ) :=
  inp.nuvTraces.map (fun ye => inp.yfull.map (fun yj => yj - ye))

/-- `order = np.argmin(abs(xdisps), 0)` per photon. -/
def cosNuvLine (inp : COSInput) : List ℕ :=
  (List.range inp.yfull.length).map (fun j =>
    argminF ((cosNuvXdisps inp).map (fun row => F.abs (F.fin (row.getD j 0)))))

/-- `xdisp = xdisps[order, np.arange(len(td['yfull']))]`. -/
def cosNuvXdisp (inp : COSInput) : List F :=
  (List.range inp.yfull.length).map (fun j =>
    F.fin (((cosNuvXdisps inp).getD ((cosNuvLine inp).getD j 0) []).getD j 0))

/-- The annotator for COS.  `epera` is the external flux-calibration
function.  Python's local-variable semantics are mirrored: `order` and
`xdisp` are `Option`s, assigned by branches that match and read at
`spectrify.py:81/83`, raising UnboundLocalError when still unassigned. -/
def spectrifyCOS (epera : F → ℤ → F) (fuel : ℕ) (inp : COSInput)
    (traceloc : String) : Except Err COSColumns :=
  let n := inp.time.length
  -- spectrify.py:43-45
  let order0 : Option (List ℤ) :=
    if inp.det = "FUV" then
      some (if inp.segment.back = 'A' then List.replicate n 0
            else List.replicate n 1)
    else none
  -- spectrify.py:46-48
  if traceloc ≠ "stsci" ∧ inp.det = "NUV" then
    .error (.notImplementedError "NUV detector has multiple traces on the same detector, so custom traceloc has not been implemented.")
  else
    -- spectrify.py:49-72
    let st1 : Option (List ℤ) × Option (List F) :=
      if traceloc = "stsci" then
        if inp.det = "NUV" then
          (some ((cosNuvLine inp).map Int.ofNat), some (cosNuvXdisp inp))
        else
          let yspec := inp.spLoc + inp.spOff
          (order0, some (inp.yfull.map (fun yj => F.fin (yj - yspec))))
      else (order0, none)
    -- spectrify.py:73-76
    let st2 : Option (List ℤ) × Option (List F) :=
      if traceloc = "median" then
        (st1.1, some (medianTrace inp.xfull inp.yfull inp.talen2 8))
      else st1
    -- spectrify.py:77-79
    let st3 : Except Err (Option (List ℤ) × Option (List F)) :=
      if traceloc = "lya" then
        match lyaTrace fuel (inp.wavelength.map F.fin) (inp.yfull.map F.fin)
            inp.talen3 with
        | some xd => .ok (st2.1, some xd)
        | none => .error .diverged
      else .ok st2
    match st3 with
    | .error e => .error e
    | .ok (oOpt, xOpt) =>
      -- spectrify.py:81 reads `order`
      match oOpt with
      | none => .error (.unboundLocalError "order")
      | some order =>
        let eperaCol := (inp.wavelength.zip order).map
          (fun p => epera (F.fin p.1) p.2)
        -- spectrify.py:83 reads `xdisp`
        match xOpt with
        | none => .error (.unboundLocalError "xdisp")
        | some xdisp => .ok ⟨order, xdisp, eperaCol⟩

/-! ## `spectrifySTIS` (`spectrify.py:85-168`)

The event table is mutated in place at `spectrify.py:107-117` (time rescale,
`del th['tscal1']`, even-snapping of both pixel axes); the mutated table is
returned beside the appended column arrays.  The jittered coordinates
`x = x + np.random.random(x.shape)*2.0` rebind the local variable only —
they are *not* written back to the table. -/

/-- One row of `x1d['sci'].data`. -/
structure STISOrder where
  sporder : ℤ
  extrlocy : List ℚ
  wavelength : List ℚ
  dq : List ℚ
deriving DecidableEq, Repr, Inhabited

structure STISInput where
  /-- `x1d['sci'].data` rows (`Norders = naxis2` is their count). -/
  orders : List STISOrder
  /-- `x1d[0].header['sizaxis1']` -/
  nxX1d : ℚ
  /-- `x1d[0].header['sizaxis2']` -/
  nyX1d : ℚ
  /-- `td['time']` -/
  time : List ℚ
  /-- `td['axis1']` (integer pixel column) -/
  axis1 : List ℤ
  /-- `td['axis2']` -/
  axis2 : List ℤ
  /-- `th['tscal1']` (present iff the key exists) -/
  tscal1 : Option ℚ
  /-- `th['axlen1']` -/
  axlen1 : ℚ
  /-- `th['axlen2']` -/
  axlen2 : ℚ
deriving DecidableEq, Repr

/-- The mutated EVENTS table after a successful run. -/
structure STISTableAfter where
  time : List ℚ
  axis1 : List ℤ
  axis2 : List ℤ
  tscal1 : Option ℚ
deriving DecidableEq, Repr

/-- The arrays appended by
`utils.append_cols(t, ['wavelength','xdisp','epera','order','dq'], ...)`.
In the multi-order path the `dq` values are the contents of the *integer*
array `np.zeros(x.shape, int)` after the assignments at `spectrify.py:150`,
wrapped as finite values; in the single-order path they are the float
interpolant outputs. -/
structure STISColumns where
  wavelength : List F
  xdisp : List F
  epera : List F
  order : List ℤ
  dq : List F
deriving DecidableEq, Repr

/-- `x[x % 2 == 1] -= 1` (`spectrify.py:115-117`): snap down to even. -/
def evenSnap (z : ℤ) : ℤ := if z % 2 = 1 then z - 1 else z

/-- The dequantized x coordinates (`spectrify.py:121-122`): even-snapped
pixels plus `np.random.random(x.shape) * 2.0` drawn right after
`np.random.seed(0)`. -/
def stisXList (g : NPRandomState) (inp : STISInput) : List ℚ :=
  let g1 := npSeed g 0
  List.zipWith (fun a r => (evenSnap a : ℚ) + r * 2)
    inp.axis1 (npDrawList g1 inp.axis1.length)

/-- The dequantized y coordinates (`spectrify.py:123`): the second draw
continues the seeded stream after the x draw. -/
def stisYList (g : NPRandomState) (inp : STISInput) : List ℚ :=
  let g2 := npAfter (npSeed g 0) inp.axis1.length
  List.zipWith (fun a r => (evenSnap a : ℚ) + r * 2)
    inp.axis2 (npDrawList g2 inp.axis2.length)

/-- The interpolation grid `xpix = np.arange(1 + xfac/2, Nx_tag + 1, xfac)`
(`spectrify.py:129`). -/
def stisXpix (inp : STISInput) : List ℚ :=
  let xfac := inp.axlen1 / inp.nxX1d
  arangeQ (1 + xfac / 2) (inp.axlen1 + 1) xfac

/-- Per-order trace interpolant (`extryinterp`, `spectrify.py:132`):
`extrlocy` scaled by `yfac`. -/
def stisInterpTrace (inp : STISInput) (o : STISOrder) (q : ℚ) : F :=
  interp1dLin (stisXpix inp) (o.extrlocy.map (fun v => v * (inp.axlen2 / inp.nyX1d))) q

/-- Per-order wavelength interpolant (`waveinterp`, `spectrify.py:133`). -/
def stisInterpWave (inp : STISInput) (o : STISOrder) (q : ℚ) : F :=
  interp1dLin (stisXpix inp) o.wavelength q

/-- Per-order quality-flag interpolant (`dqinterp`, `spectrify.py:134`). -/
def stisInterpDq (inp : STISInput) (o : STISOrder) (q : ℚ) : F :=
  interp1dNear (stisXpix inp) o.dq q

/-- Signed distance rows `xdisp = np.array([y - yint(x) for yint in
extryinterp])` (`spectrify.py:139`). -/
def stisRows (inp : STISInput) (x y : List ℚ) : List (List F) :=
  inp.orders.map (fun o =>
    (y.zip x).map (fun p => F.sub (F.fin p.1) (stisInterpTrace inp o p.2)))

/-- `line = np.argmin(abs(xdisp), 0)` (`spectrify.py:140`). -/
def stisLine (inp : STISInput) (x y : List ℚ) : List ℕ :=
  (List.range x.length).map (fun j =>
    argminF ((stisRows inp x y).map (fun row => F.abs (row.getD j F.nan))))

/-- The multi-order column computation (`spectrify.py:137-151`).  Wavelength
and quality flags are evaluated from the assigned order's interpolants; the
per-order-group loop of the source is elementwise-equivalent.  The quality
values pass through numpy's unsafe cast into the int array
`np.zeros(x.shape, int)`. -/
def stisMultiCols (epera : F → ℤ → F) (inp : STISInput) (x y : List ℚ) :
    STISColumns :=
  let n := x.length
  let line := stisLine inp x y
  let xdisp := (List.range n).map (fun j =>
    ((stisRows inp x y).getD (line.getD j 0) []).getD j F.nan)
  let order := line.map (fun l => (inp.orders.getD l default).sporder)
  let wave := (List.range n).map (fun j =>
    stisInterpWave inp (inp.orders.getD (line.getD j 0) default) (x.getD j 0))
  let dq := (List.range n).map (fun j =>
    F.fin (intCastF (stisInterpDq inp (inp.orders.getD (line.getD j 0) default)
      (x.getD j 0))))
  let eperaCol := (wave.zip line).map (fun p => epera p.1 (p.2 : ℤ))
  ⟨wave, xdisp, eperaCol, order, dq⟩

/-- The single-order column computation (`spectrify.py:153-163`).
`xdisp` follows the requested traceloc policy; an unrecognised policy
leaves it unassigned (read at `spectrify.py:167` → UnboundLocalError). -/
def stisSingleCols (epera1 : F → F) (fuel : ℕ) (inp : STISInput)
    (x y : List ℚ) (traceloc : String) : Except Err STISColumns :=
  let o := inp.orders.getD 0 default
  let dq := x.map (stisInterpDq inp o)
  let order := List.replicate x.length o.sporder
  let wave := x.map (stisInterpWave inp o)
  let xd1 : Option (List F) :=
    if traceloc = "stsci" then
      some ((y.zip x).map (fun p => F.sub (F.fin p.1) (stisInterpTrace inp o p.2)))
    else none
  let xd2 : Option (List F) :=
    if traceloc = "median" then some (medianTrace x y inp.axlen1 1) else xd1
  let xd3 : Except Err (Option (List F)) :=
    if traceloc = "lya" then
      match lyaTrace fuel wave (y.map F.fin) inp.axlen2 with
      | some xd => .ok (some xd)
      | none => .error .diverged
    else .ok xd2
  match xd3 with
  | .error e => .error e
  | .ok none => .error (.unboundLocalError "xdisp")
  | .ok (some xdisp) =>
    let eperaCol := wave.map epera1
    .ok ⟨wave, xdisp, eperaCol, order, dq⟩

/-- The annotator for STIS.  `epera`/`epera1` are the two-argument and
one-argument forms of the external flux-calibration function; `g` is the
ambient numpy global generator state; `fuel` bounds the `__lya_trace`
loop. -/
def spectrifySTIS (epera : F → ℤ → F) (epera1 : F → F) (fuel : ℕ)
    (g : NPRandomState) (inp : STISInput) (traceloc : String) :
    Except Err (STISTableAfter × STISColumns) :=
  -- spectrify.py:97-99: `raise NotImplemented(...)` — TypeError (not callable)
  if 1 < inp.orders.length ∧ traceloc ≠ "stsci" then .error .typeErrorNotCallable
  else
    -- spectrify.py:108: `th['tscal1']` lookup
    match inp.tscal1 with
    | none => .error (.keyError "tscal1")
    | some ts =>
      let tbl : STISTableAfter :=
        ⟨inp.time.map (fun t => t * ts), inp.axis1.map evenSnap,
         inp.axis2.map evenSnap, none⟩
      let x := stisXList g inp
      let y := stisYList g inp
      if 1 < inp.orders.length then .ok (tbl, stisMultiCols epera inp x y)
      else if inp.orders.length = 1 then
        match stisSingleCols epera1 fuel inp x y traceloc with
        | .error e => .error e
        | .ok cols => .ok (tbl, cols)
      else
        -- Norders = 0: neither branch assigns `wave` (read at spectrify.py:167)
        .error (.unboundLocalError "wave")

/-! ## Concrete exposures used by witnesses and counterexamples -/

/-- A constant stand-in for the external flux-calibration function. -/
def eperaK : F → ℤ → F := fun _ _ => F.fin 7

/-- Single-argument form of the stand-in flux-calibration function. -/
def eperaK1 : F → F := fun _ => F.fin 7

/-- A two-order STIS exposure with one in-domain photon. -/
def cfgStisW : STISInput :=
  { orders := [⟨1, [10, 10, 10], [1200, 1210, 1220], [0, 0, 0]⟩,
               ⟨2, [100, 100, 100], [1300, 1310, 1320], [5, 5, 5]⟩],
    nxX1d := 3, nyX1d := 16,
    time := [3], axis1 := [2], axis2 := [10],
    tscal1 := some 2, axlen1 := 3, axlen2 := 16 }

/-- A two-order STIS exposure whose only photon lies far outside the
interpolation grid `xpix = [3/2, 5/2, 7/2]`. -/
def cfgStisC2 : STISInput :=
  { orders := [⟨1, [10, 10, 10], [1200, 1210, 1220], [0, 0, 0]⟩,
               ⟨2, [100, 100, 100], [1300, 1310, 1320], [5, 5, 5]⟩],
    nxX1d := 3, nyX1d := 16,
    time := [0], axis1 := [1000], axis2 := [10],
    tscal1 := some 1, axlen1 := 3, axlen2 := 16 }

/-- A single-order STIS exposure. -/
def cfgStisSingle : STISInput :=
  { orders := [⟨1, [10, 10, 10], [1200, 1210, 1220], [0, 0, 0]⟩],
    nxX1d := 3, nyX1d := 16,
    time := [3], axis1 := [2], axis2 := [10],
    tscal1 := some 2, axlen1 := 3, axlen2 := 16 }

/-- A COS NUV exposure with two traces and one photon. -/
def cfgCosNuvW : COSInput :=
  { segment := "N/A", det := "NUV", nuvTraces := [50, 150],
    spLoc := 0, spOff := 0,
    time := [0], xfull := [1], yfull := [60], wavelength := [1000],
    talen2 := 16, talen3 := 16 }

/-- A COS FUV exposure with one photon. -/
def cfgCosFuvW : COSInput :=
  { segment := "FUVA", det := "FUV", nuvTraces := [],
    spLoc := 2, spOff := 1,
    time := [0], xfull := [1], yfull := [5], wavelength := [1000],
    talen2 := 16, talen3 := 16 }

/-! ## Claim C3 -/

/-- Claim C3 (code bug, `spectrify.py:97-99`): requesting a custom traceloc
on an STIS echellogram executes `raise NotImplemented('Cannot manually
determine...')`, but `NotImplemented` is Python's binary-dispatch constant,
not an exception class — calling it raises
`TypeError: 'NotImplementedType' object is not callable` instead of the
intended configuration error.  The parallel COS NUV guard
(`spectrify.py:46-48`) correctly raises `NotImplementedError`.  Either way
the failure occurs before any output column is appended (the result is an
`Except.error`). -/
theorem stis_config_rejection_raises_typeerror :
    spectrifySTIS eperaK eperaK1 3 ⟨2, 2⟩ cfgStisW "median"
      = .error .typeErrorNotCallable
    ∧ spectrifyCOS eperaK 3 cfgCosNuvW "median"
      = .error (.notImplementedError "NUV detector has multiple traces on the same detector, so custom traceloc has not been implemented.") := by
  exact ⟨rfl, rfl⟩

/-! ## Claim C4 -/

/-- Claim C4 is false on the code: when the Lyman-alpha window selects zero
samples, `__lya_trace` computes `np.median` of an empty array (NaN with a
RuntimeWarning, not an exception), the convergence test `NaN > 1e-4`
evaluates to False so the loop exits at once, and the function silently
returns all-NaN offsets — no error is raised. -/
theorem lya_empty_selection_silent_nan :
    lyaTrace 3 [F.fin 1300] [F.fin 5] 512 = some [F.nan] := by
  with_unfolding_all rfl

/-- Claim C4 (amended): when the initial wavelength-window selection is
empty, `__lya_trace` raises no error: it returns normally with a NaN
cross-dispersion offset for every photon (the NaN centroid makes the
convergence test false immediately, and `y - NaN` is NaN elementwise). -/
theorem lya_empty_selection_returns_nan (fuel : ℕ) (w y : List F) (ymax : ℚ)
    (hsel : lyaSelect w y = []) :
    lyaTrace fuel w y ymax = some (List.replicate y.length F.nan) := by
  have htest : lyaTest F.inf F.nan = false := rfl
  have hloop : lyaLoopGo F.inf F.nan (ymax / 2) [] fuel = (some F.nan, [F.nan]) := by
    cases fuel with
    | zero => simp [lyaLoopGo, htest]
    | succ fuel' => simp [lyaLoopGo, htest]
  have hrun : lyaRunFull fuel w y ymax = (some F.nan, [F.nan]) := by
    unfold lyaRunFull
    rw [hsel]
    show lyaLoopGo F.inf (medianF (List.map Prod.snd [])) (ymax / 2) [] fuel = _
    have hmed : medianF (List.map Prod.snd ([] : List (F × F))) = F.nan := rfl
    rw [hmed]
    exact hloop
  unfold lyaTrace
  rw [hrun]
  simp only [Option.some.injEq]
  simp [F.sub_nan]

/-- Witness for C4-amended: a sample whose wavelength misses the window. -/
theorem lya_empty_selection_returns_nan_witness :
    lyaTrace 2 [F.fin 9999] [F.fin 1, F.fin 2] 77
      = some (List.replicate 2 F.nan) := by
  have h := lya_empty_selection_returns_nan 2 [F.fin 9999] [F.fin 1, F.fin 2] 77
    (by with_unfolding_all decide)
  simpa using h

/-! ## Claim C5 -/

/-- Claim C5 is false on the code: the convergence test
`abs(ytrace - ytrace_old)/ytrace > 1e-4` has no guard for a zero centroid.
For a sample set whose selected median is exactly 0, the test divides by
zero twice (first `inf/0 = inf`, which continues the loop, then
`0/0 = NaN`, which exits it).  The denominator log of the run contains
`0`. -/
theorem lya_zero_centroid_division :
    lyaRunFull 9 [F.fin 1215] [F.fin 0] 512
      = (some (F.fin 0), [F.fin 0, F.fin 0])
    ∧ F.fin 0 ∈ lyaDenoms 9 [F.fin 1215] [F.fin 0] 512 := by
  exact ⟨by with_unfolding_all rfl, by with_unfolding_all decide⟩

/-- Claim C5 (amended): the convergence test is not guarded — whenever the
median of the selected samples is exactly zero, the test's division is
evaluated with denominator 0 (numpy float semantics keep it from raising,
yielding inf resp. NaN). -/
theorem lya_zero_centroid_denominator_zero (fuel : ℕ) (w y : List F)
    (ymax : ℚ) (h : medianF ((lyaSelect w y).map Prod.snd) = F.fin 0) :
    F.fin 0 ∈ lyaDenoms fuel w y ymax := by
  unfold lyaDenoms lyaRunFull
  show F.fin 0 ∈ (lyaLoopGo F.inf (medianF ((lyaSelect w y).map Prod.snd))
    (ymax / 2) (lyaSelect w y) fuel).2
  rw [h]
  exact lyaLoopGo_denoms_head _ _ _ _ fuel

/-- Witness for C5-amended: concrete samples with zero median. -/
theorem lya_zero_centroid_denominator_zero_witness :
    F.fin 0 ∈ lyaDenoms 5 [F.fin 1216] [F.fin 0] 10 :=
  lya_zero_centroid_denominator_zero 5 [F.fin 1216] [F.fin 0] 10
    (by with_unfolding_all decide)

/-! ## Claim C7 -/

/-- Claim C7 (confirmed): dequantization is deterministic.  The source calls
`np.random.seed(0)` immediately before drawing the jitters, so the
dequantized coordinate arrays — and the whole annotator result — do not
depend on the ambient numpy generator state: two runs over the same input
produce identical (bit-identical in the model) arrays. -/
theorem dequantization_deterministic (g1 g2 : NPRandomState)
    (epera : F → ℤ → F) (epera1 : F → F) (fuel : ℕ) (inp : STISInput)
    (traceloc : String) :
    stisXList g1 inp = stisXList g2 inp
    ∧ stisYList g1 inp = stisYList g2 inp
    ∧ spectrifySTIS epera epera1 fuel g1 inp traceloc
      = spectrifySTIS epera epera1 fuel g2 inp traceloc := by
  refine ⟨?_, ?_, ?_⟩ <;> simp [spectrifySTIS, stisXList, stisYList, npSeed]


/-! ## Claim C9 -/

/-- Claim C9 (confirmed): a traceloc outside the set of 'stsci', 'median',
'lya' leaves `xdisp` unassigned on the COS FUV path and the single-order
STIS path; the read at `spectrify.py:83` resp. `spectrify.py:167` raises
UnboundLocalError — not a configuration error — and the annotators append
no output columns (the embedded result is an `Except.error`, carrying no
column arrays). -/
theorem unrecognized_traceloc_unbound_local
    (epera : F → ℤ → F) (epera1 : F → F) (fuel : ℕ) (g : NPRandomState)
    (cos : COSInput) (stis : STISInput) (traceloc : String) (ts : ℚ)
    (hdet : cos.det = "FUV")
    (h1 : traceloc ≠ "stsci") (h2 : traceloc ≠ "median") (h3 : traceloc ≠ "lya")
    (hord : stis.orders.length = 1) (hts : stis.tscal1 = some ts) :
    spectrifyCOS epera fuel cos traceloc = .error (.unboundLocalError "xdisp")
    ∧ spectrifySTIS epera epera1 fuel g stis traceloc
      = .error (.unboundLocalError "xdisp") := by
  constructor
  · have hFN : ¬(cos.det = "NUV") := by rw [hdet]; decide
    simp [spectrifyCOS, hFN, hdet, h1, h2, h3]
  · unfold spectrifySTIS
    rw [hts]
    have hno : ¬(1 < stis.orders.length ∧ traceloc ≠ "stsci") := by
      rw [hord]; simp
    rw [if_neg hno]
    simp only [hord]
    simp [stisSingleCols, h1, h2, h3]

/-- Witness for C9 at traceloc 'custom'. -/
theorem unrecognized_traceloc_unbound_local_witness :
    spectrifyCOS eperaK 3 cfgCosFuvW "custom"
      = .error (.unboundLocalError "xdisp")
    ∧ spectrifySTIS eperaK eperaK1 3 ⟨0, 0⟩ cfgStisSingle "custom"
      = .error (.unboundLocalError "xdisp") :=
  unrecognized_traceloc_unbound_local eperaK eperaK1 3 ⟨0, 0⟩ cfgCosFuvW
    cfgStisSingle "custom" 2 rfl (by decide) (by decide) (by decide) rfl rfl


/-! ## Claims C10 and C6: the mutated table -/

/-- Whatever the traceloc policy, a successful STIS run returns the event
table with rescaled times, even-snapped integer pixel axes on both axes,
and the `tscal1` key deleted (`spectrify.py:107-117`). -/
theorem spectrifySTIS_ok_table (epera : F → ℤ → F) (epera1 : F → F)
    (fuel : ℕ) (g : NPRandomState) (inp : STISInput) (traceloc : String)
    (ts : ℚ) (tbl : STISTableAfter) (cols : STISColumns)
    (hts : inp.tscal1 = some ts)
    (hok : spectrifySTIS epera epera1 fuel g inp traceloc = .ok (tbl, cols)) :
    tbl = ⟨inp.time.map (fun t => t * ts), inp.axis1.map evenSnap,
           inp.axis2.map evenSnap, none⟩ := by
  unfold spectrifySTIS at hok
  rw [hts] at hok
  by_cases h1 : 1 < inp.orders.length ∧ traceloc ≠ "stsci"
  · rw [if_pos h1] at hok
    exact absurd hok (by simp)
  · rw [if_neg h1] at hok
    simp only at hok
    by_cases h2 : 1 < inp.orders.length
    · rw [if_pos h2] at hok
      simp only [Except.ok.injEq, Prod.mk.injEq] at hok
      exact hok.1.symm
    · rw [if_neg h2] at hok
      by_cases h3 : inp.orders.length = 1
      · rw [if_pos h3] at hok
        cases hsc : stisSingleCols epera1 fuel inp (stisXList g inp)
            (stisYList g inp) traceloc with
        | error e => rw [hsc] at hok; exact absurd hok (by simp)
        | ok c =>
          rw [hsc] at hok
          simp only [Except.ok.injEq, Prod.mk.injEq] at hok
          exact hok.1.symm
      · rw [if_neg h3] at hok
        exact absurd hok (by simp)

/-- Claim C10 (confirmed): `spectrifySTIS` mutates its input table in
place.  After a successful run the time column holds the rescaled values,
both pixel axes have odd values decremented to even, and the `tscal1` key
has been deleted; re-running the annotator on the mutated table fails with
`KeyError: 'tscal1'` at `spectrify.py:108`. -/
theorem stis_mutation_and_second_run_fails
    (epera epera' : F → ℤ → F) (epera1 epera1' : F → F) (fuel fuel' : ℕ)
    (g g' : NPRandomState) (inp : STISInput) (ts : ℚ)
    (tbl : STISTableAfter) (cols : STISColumns)
    (hts : inp.tscal1 = some ts)
    (hok : spectrifySTIS epera epera1 fuel g inp "stsci" = .ok (tbl, cols)) :
    tbl.time = inp.time.map (fun t => t * ts)
    ∧ tbl.axis1 = inp.axis1.map evenSnap
    ∧ tbl.axis2 = inp.axis2.map evenSnap
    ∧ tbl.tscal1 = none
    ∧ spectrifySTIS epera' epera1' fuel' g'
        { inp with time := tbl.time, axis1 := tbl.axis1,
                   axis2 := tbl.axis2, tscal1 := tbl.tscal1 } "stsci"
      = .error (.keyError "tscal1") := by
  have h := spectrifySTIS_ok_table epera epera1 fuel g inp "stsci" ts tbl cols
    hts hok
  subst h
  refine ⟨rfl, rfl, rfl, rfl, ?_⟩
  unfold spectrifySTIS
  rw [if_neg (by simp)]

/-- Witness for C10 on a concrete two-order exposure. -/
theorem stis_mutation_and_second_run_fails_witness :
    (⟨[6], [2], [10], none⟩ : STISTableAfter).time = [3].map (fun t => t * 2)
    ∧ (⟨[6], [2], [10], none⟩ : STISTableAfter).axis1 = [2].map evenSnap
    ∧ (⟨[6], [2], [10], none⟩ : STISTableAfter).axis2 = [10].map evenSnap
    ∧ (⟨[6], [2], [10], none⟩ : STISTableAfter).tscal1 = none
    ∧ spectrifySTIS eperaK eperaK1 3 ⟨5, 5⟩
        { cfgStisW with time := [6], axis1 := [2], axis2 := [10],
                        tscal1 := none } "stsci"
      = .error (.keyError "tscal1") :=
  stis_mutation_and_second_run_fails eperaK eperaK eperaK1 eperaK1 3 3
    ⟨8, 1⟩ ⟨5, 5⟩ cfgStisW 2 ⟨[6], [2], [10], none⟩
    ⟨[F.fin (19295/16)], [F.fin (5/8)], [F.fin 7], [1], [F.fin 0]⟩ rfl
    (by with_unfolding_all rfl)

/-- Claim C6 (confirmed): STIS preprocessing is applied in source order —
the timestamps are multiplied by `tscal1` and the key is then deleted;
each pixel coordinate on both axes is snapped *down* to the nearest even
value (`evenSnap z` is even, `≤ z`, and at distance ≤ 1); and the
coordinates used downstream are the snapped values plus a jitter in
`[0, 2)` drawn from the generator seeded with 0 (x uses draws `0..n-1`,
y the following draws). -/
theorem stis_preprocessing_order
    (epera : F → ℤ → F) (epera1 : F → F) (fuel : ℕ) (g : NPRandomState)
    (inp : STISInput) (traceloc : String) (ts : ℚ)
    (tbl : STISTableAfter) (cols : STISColumns)
    (hts : inp.tscal1 = some ts)
    (hok : spectrifySTIS epera epera1 fuel g inp traceloc = .ok (tbl, cols)) :
    tbl.time = inp.time.map (fun t => t * ts)
    ∧ tbl.tscal1 = none
    ∧ tbl.axis1 = inp.axis1.map evenSnap
    ∧ tbl.axis2 = inp.axis2.map evenSnap
    ∧ (∀ z : ℤ, evenSnap z % 2 = 0 ∧ evenSnap z ≤ z ∧ z - evenSnap z ≤ 1)
    ∧ (∀ j, j < inp.axis1.length →
        (stisXList g inp).getD j 0
          = (evenSnap (inp.axis1.getD j 0) : ℚ) + npRandomValue 0 j * 2
        ∧ 0 ≤ npRandomValue 0 j * 2 ∧ npRandomValue 0 j * 2 < 2)
    ∧ (∀ j, j < inp.axis2.length →
        (stisYList g inp).getD j 0
          = (evenSnap (inp.axis2.getD j 0) : ℚ)
              + npRandomValue 0 (inp.axis1.length + j) * 2
        ∧ 0 ≤ npRandomValue 0 (inp.axis1.length + j) * 2
        ∧ npRandomValue 0 (inp.axis1.length + j) * 2 < 2) := by
  have h := spectrifySTIS_ok_table epera epera1 fuel g inp traceloc ts tbl cols
    hts hok
  subst h
  refine ⟨rfl, rfl, rfl, rfl, ?_, ?_, ?_⟩
  · intro z
    unfold evenSnap
    by_cases hz : z % 2 = 1
    · rw [if_pos hz]
      refine ⟨by omega, by omega, by omega⟩
    · rw [if_neg hz]
      have h2 : z % 2 = 0 := by omega
      refine ⟨h2, le_refl z, by omega⟩
  · intro j hj
    refine ⟨?_, ?_, ?_⟩
    · unfold stisXList npDrawList npSeed
      rw [getD_zipWith_lt _ _ _ _ _ 0 0 hj (by simpa using hj)]
      rw [getD_map_lt _ _ _ _ 0 (by simpa using hj)]
      have : (List.range inp.axis1.length).getD j 0 = j := by
        rw [List.getD_eq_getElem?_getD]
        simp [hj]
      rw [this]
      simp
    · have := npRandomValue_nonneg 0 j
      positivity
    · have := npRandomValue_lt_one 0 j
      linarith
  · intro j hj
    refine ⟨?_, ?_, ?_⟩
    · unfold stisYList npDrawList npSeed npAfter
      rw [getD_zipWith_lt _ _ _ _ _ 0 0 hj (by simpa using hj)]
      rw [getD_map_lt _ _ _ _ 0 (by simpa using hj)]
      have : (List.range inp.axis2.length).getD j 0 = j := by
        rw [List.getD_eq_getElem?_getD]
        simp [hj]
      rw [this]
      simp
    · have := npRandomValue_nonneg 0 (inp.axis1.length + j)
      positivity
    · have := npRandomValue_lt_one 0 (inp.axis1.length + j)
      linarith

/-- Witness for C6 on a concrete two-order exposure. -/
theorem stis_preprocessing_order_witness :
    (⟨[6], [2], [10], none⟩ : STISTableAfter).time = [3].map (fun t => t * 2)
    ∧ (⟨[6], [2], [10], none⟩ : STISTableAfter).tscal1 = none
    ∧ (⟨[6], [2], [10], none⟩ : STISTableAfter).axis1 = [2].map evenSnap
    ∧ (⟨[6], [2], [10], none⟩ : STISTableAfter).axis2 = [10].map evenSnap
    ∧ (∀ z : ℤ, evenSnap z % 2 = 0 ∧ evenSnap z ≤ z ∧ z - evenSnap z ≤ 1)
    ∧ (∀ j, j < cfgStisW.axis1.length →
        (stisXList ⟨8, 1⟩ cfgStisW).getD j 0
          = (evenSnap (cfgStisW.axis1.getD j 0) : ℚ) + npRandomValue 0 j * 2
        ∧ 0 ≤ npRandomValue 0 j * 2 ∧ npRandomValue 0 j * 2 < 2)
    ∧ (∀ j, j < cfgStisW.axis2.length →
        (stisYList ⟨8, 1⟩ cfgStisW).getD j 0
          = (evenSnap (cfgStisW.axis2.getD j 0) : ℚ)
              + npRandomValue 0 (cfgStisW.axis1.length + j) * 2
        ∧ 0 ≤ npRandomValue 0 (cfgStisW.axis1.length + j) * 2
        ∧ npRandomValue 0 (cfgStisW.axis1.length + j) * 2 < 2) :=
  stis_preprocessing_order eperaK eperaK1 3 ⟨8, 1⟩ cfgStisW "stsci" 2
    ⟨[6], [2], [10], none⟩
    ⟨[F.fin (19295/16)], [F.fin (5/8)], [F.fin 7], [1], [F.fin 0]⟩ rfl
    (by with_unfolding_all rfl)


/-- A query strictly outside `[x[0], x[-1]]` evaluates to the NaN fill
value (linear kind). -/
theorem interp1dLin_out_of_range (xs ys : List ℚ) (q lo hi : ℚ)
    (hlo : xs.head? = some lo) (hhi : xs.getLast? = some hi)
    (hq : q < lo ∨ hi < q) : interp1dLin xs ys q = F.nan := by
  unfold interp1dLin
  rw [hlo, hhi]
  simp [hq]

/-- A query strictly outside `[x[0], x[-1]]` evaluates to the NaN fill
value (nearest kind). -/
theorem interp1dNear_out_of_range (xs ys : List ℚ) (q lo hi : ℚ)
    (hlo : xs.head? = some lo) (hhi : xs.getLast? = some hi)
    (hq : q < lo ∨ hi < q) : interp1dNear xs ys q = F.nan := by
  unfold interp1dNear
  rw [hlo, hhi]
  simp [hq]

/-! ## Claim C2 -/

/-- A successful multi-order run is the multi-order column computation on
the dequantized coordinates. -/
theorem spectrifySTIS_ok_multi (epera : F → ℤ → F) (epera1 : F → F)
    (fuel : ℕ) (g : NPRandomState) (inp : STISInput) (ts : ℚ)
    (tbl : STISTableAfter) (cols : STISColumns)
    (hts : inp.tscal1 = some ts) (h2 : 1 < inp.orders.length)
    (hok : spectrifySTIS epera epera1 fuel g inp "stsci" = .ok (tbl, cols)) :
    cols = stisMultiCols epera inp (stisXList g inp) (stisYList g inp) := by
  unfold spectrifySTIS at hok
  rw [hts] at hok
  rw [if_neg (by simp)] at hok
  simp only at hok
  rw [if_pos h2] at hok
  simp only [Except.ok.injEq, Prod.mk.injEq] at hok
  exact hok.2.symm

/-- Claim C2 is false as stated: in the two-order exposure `cfgStisC2` the
only photon's dequantized x (1000 + 3/32) lies beyond the grid
`xpix = [3/2, 5/2, 7/2]`.  The wavelength column does store the NaN
sentinel, but the quality-flag value stored in the multi-order output
column is the integer cast of NaN (`np.zeros(x.shape, int)` assignment at
`spectrify.py:150`), `INT64_MIN` — a defined integer, not the NaN
sentinel. -/
theorem dq_column_not_nan_counterexample :
    spectrifySTIS eperaK eperaK1 3 ⟨4, 9⟩ cfgStisC2 "stsci"
      = .ok (⟨[0], [1000], [10], none⟩,
        ⟨[F.nan], [F.nan], [F.fin 7], [1], [F.fin (-(2 ^ 63))]⟩)
    ∧ stisXpix cfgStisC2 = [3 / 2, 5 / 2, 7 / 2]
    ∧ (7 : ℚ) / 2 < (stisXList ⟨4, 9⟩ cfgStisC2).getD 0 0
    ∧ F.fin (-(2 ^ 63)) ≠ F.nan := by
  refine ⟨by with_unfolding_all rfl, by with_unfolding_all rfl,
    by with_unfolding_all decide, by simp⟩

/-- Claim C2 (amended): the per-order interpolants never extrapolate and
never raise — a query outside the grid interval evaluates to the NaN
sentinel for the piecewise-linear (trace, wavelength) and nearest-neighbour
(quality) profiles alike, and the multi-order *wavelength* column preserves
that sentinel; but the multi-order *quality-flag* column, being an integer
array, stores the integer cast of NaN (`INT64_MIN`) instead of the
sentinel. -/
theorem interp_no_extrapolation_amended
    (epera : F → ℤ → F) (epera1 : F → F) (fuel : ℕ) (g : NPRandomState)
    (inp : STISInput) (o : STISOrder) (q : ℚ) (lo hi : ℚ) (j : ℕ) (ts : ℚ)
    (tbl : STISTableAfter) (cols : STISColumns)
    (hlo : (stisXpix inp).head? = some lo)
    (hhi : (stisXpix inp).getLast? = some hi)
    (hq : q < lo ∨ hi < q)
    (hts : inp.tscal1 = some ts) (h2 : 1 < inp.orders.length)
    (hok : spectrifySTIS epera epera1 fuel g inp "stsci" = .ok (tbl, cols))
    (hj : j < (stisXList g inp).length)
    (hxj : (stisXList g inp).getD j 0 < lo ∨ hi < (stisXList g inp).getD j 0) :
    stisInterpTrace inp o q = F.nan
    ∧ stisInterpWave inp o q = F.nan
    ∧ stisInterpDq inp o q = F.nan
    ∧ cols.wavelength.getD j F.nan = F.nan
    ∧ cols.dq.getD j F.nan = F.fin nanIntCast
    ∧ F.fin nanIntCast ≠ F.nan := by
  have hlin : ∀ ys : List ℚ, interp1dLin (stisXpix inp) ys q = F.nan :=
    fun ys => interp1dLin_out_of_range _ ys q lo hi hlo hhi hq
  have hnear : ∀ ys : List ℚ, interp1dNear (stisXpix inp) ys q = F.nan :=
    fun ys => interp1dNear_out_of_range _ ys q lo hi hlo hhi hq
  have hlinx : ∀ ys : List ℚ,
      interp1dLin (stisXpix inp) ys ((stisXList g inp).getD j 0) = F.nan :=
    fun ys => interp1dLin_out_of_range _ ys _ lo hi hlo hhi hxj
  have hnearx : ∀ ys : List ℚ,
      interp1dNear (stisXpix inp) ys ((stisXList g inp).getD j 0) = F.nan :=
    fun ys => interp1dNear_out_of_range _ ys _ lo hi hlo hhi hxj
  have hcols := spectrifySTIS_ok_multi epera epera1 fuel g inp ts tbl cols
    hts h2 hok
  subst hcols
  refine ⟨hlin _, hlin _, hnear _, ?_, ?_, by simp [nanIntCast]⟩
  · show ((List.range (stisXList g inp).length).map (fun j =>
      stisInterpWave inp
        (inp.orders.getD ((stisLine inp (stisXList g inp) (stisYList g inp)).getD j 0)
          default) ((stisXList g inp).getD j 0))).getD j F.nan = F.nan
    rw [getD_range_map _ _ _ _ hj]
    exact hlinx _
  · show ((List.range (stisXList g inp).length).map (fun j =>
      F.fin (intCastF (stisInterpDq inp
        (inp.orders.getD ((stisLine inp (stisXList g inp) (stisYList g inp)).getD j 0)
          default) ((stisXList g inp).getD j 0))))).getD j F.nan
      = F.fin nanIntCast
    rw [getD_range_map _ _ _ _ hj]
    rw [show stisInterpDq inp
        (inp.orders.getD ((stisLine inp (stisXList g inp) (stisYList g inp)).getD j 0)
          default) ((stisXList g inp).getD j 0) = F.nan from hnearx _]
    rfl

/-- Witness for C2-amended on the out-of-domain exposure `cfgStisC2`. -/
theorem interp_no_extrapolation_amended_witness :
    stisInterpTrace cfgStisC2 ⟨1, [10, 10, 10], [1200, 1210, 1220], [0, 0, 0]⟩ 1000 = F.nan
    ∧ stisInterpWave cfgStisC2 ⟨1, [10, 10, 10], [1200, 1210, 1220], [0, 0, 0]⟩ 1000 = F.nan
    ∧ stisInterpDq cfgStisC2 ⟨1, [10, 10, 10], [1200, 1210, 1220], [0, 0, 0]⟩ 1000 = F.nan
    ∧ (⟨[F.nan], [F.nan], [F.fin 7], [1], [F.fin (-(2 ^ 63))]⟩ :
        STISColumns).wavelength.getD 0 F.nan = F.nan
    ∧ (⟨[F.nan], [F.nan], [F.fin 7], [1], [F.fin (-(2 ^ 63))]⟩ :
        STISColumns).dq.getD 0 F.nan = F.fin nanIntCast
    ∧ F.fin nanIntCast ≠ F.nan :=
  interp_no_extrapolation_amended eperaK eperaK1 3 ⟨4, 9⟩ cfgStisC2
    ⟨1, [10, 10, 10], [1200, 1210, 1220], [0, 0, 0]⟩ 1000 (3 / 2) (7 / 2) 0 1
    ⟨[0], [1000], [10], none⟩
    ⟨[F.nan], [F.nan], [F.fin 7], [1], [F.fin (-(2 ^ 63))]⟩
    (by with_unfolding_all rfl) (by with_unfolding_all rfl)
    (by with_unfolding_all decide) rfl (by decide)
    (by with_unfolding_all rfl) (by with_unfolding_all decide)
    (by with_unfolding_all decide)


/-! ## Claim C8 -/

theorem stisXList_length (g : NPRandomState) (inp : STISInput) :
    (stisXList g inp).length = inp.axis1.length := by
  simp [stisXList, npDrawList]

theorem stisYList_length (g : NPRandomState) (inp : STISInput) :
    (stisYList g inp).length = inp.axis2.length := by
  simp [stisYList, npDrawList]

/-- Every multi-order output column has one entry per photon. -/
theorem stisMultiCols_lengths (epera : F → ℤ → F) (inp : STISInput)
    (x y : List ℚ) :
    (stisMultiCols epera inp x y).wavelength.length = x.length
    ∧ (stisMultiCols epera inp x y).xdisp.length = x.length
    ∧ (stisMultiCols epera inp x y).epera.length = x.length
    ∧ (stisMultiCols epera inp x y).order.length = x.length
    ∧ (stisMultiCols epera inp x y).dq.length = x.length := by
  simp [stisMultiCols, stisLine]

/-- Every single-order output column of a successful run has one entry per
photon. -/
theorem stisSingleCols_ok_lengths (epera1 : F → F) (fuel : ℕ)
    (inp : STISInput) (x y : List ℚ) (tl : String) (cols : STISColumns)
    (hxy : y.length = x.length)
    (h : stisSingleCols epera1 fuel inp x y tl = .ok cols) :
    cols.wavelength.length = x.length ∧ cols.xdisp.length = x.length
    ∧ cols.epera.length = x.length ∧ cols.order.length = x.length
    ∧ cols.dq.length = x.length := by
  simp only [stisSingleCols] at h
  split at h
  · exact absurd h (by simp)
  · exact absurd h (by simp)
  · rename_i xd hxd
    simp only [Except.ok.injEq] at h
    subst h
    refine ⟨by simp, ?_, by simp, by simp, by simp⟩
    -- xd came from one of the three policy branches
    by_cases h3 : tl = "lya"
    · rw [if_pos h3] at hxd
      cases hlya : lyaTrace fuel (x.map (stisInterpWave inp (inp.orders.getD 0 default)))
          (y.map F.fin) inp.axlen2 with
      | none => rw [hlya] at hxd; exact absurd hxd (by simp)
      | some r =>
        rw [hlya] at hxd
        simp only [Except.ok.injEq, Option.some.injEq] at hxd
        have := lyaTrace_length _ _ _ _ _ hlya
        simp at this
        simp [← hxd, this, hxy]
    · rw [if_neg h3] at hxd
      simp only [Except.ok.injEq] at hxd
      by_cases h2 : tl = "median"
      · rw [if_pos h2] at hxd
        simp only [Option.some.injEq] at hxd
        rw [← hxd]
        rw [medianTrace_length x y inp.axlen1 1 hxy.symm]
        exact hxy
      · rw [if_neg h2] at hxd
        by_cases h1 : tl = "stsci"
        · rw [if_pos h1] at hxd
          simp only [Option.some.injEq] at hxd
          simp [← hxd, hxy]
        · rw [if_neg h1] at hxd
          exact absurd hxd (by simp)

/-- A successful single-order run is the single-order column computation on
the dequantized coordinates. -/
theorem spectrifySTIS_ok_single (epera : F → ℤ → F) (epera1 : F → F)
    (fuel : ℕ) (g : NPRandomState) (inp : STISInput) (traceloc : String)
    (tbl : STISTableAfter) (cols : STISColumns)
    (h1 : inp.orders.length = 1)
    (hok : spectrifySTIS epera epera1 fuel g inp traceloc = .ok (tbl, cols)) :
    stisSingleCols epera1 fuel inp (stisXList g inp) (stisYList g inp)
      traceloc = .ok cols := by
  unfold spectrifySTIS at hok
  rw [if_neg (by rw [h1]; simp)] at hok
  cases hts : inp.tscal1 with
  | none => rw [hts] at hok; exact absurd hok (by simp)
  | some ts =>
    rw [hts] at hok
    simp only at hok
    rw [if_neg (by omega), if_pos h1] at hok
    cases hsc : stisSingleCols epera1 fuel inp (stisXList g inp)
        (stisYList g inp) traceloc with
    | error e => rw [hsc] at hok; exact absurd hok (by simp)
    | ok c =>
      rw [hsc] at hok
      simp only [Except.ok.injEq, Prod.mk.injEq] at hok
      rw [hok.2]

/-- Reduction of the COS annotator: stsci policy on the NUV detector. -/
theorem spectrifyCOS_stsci_nuv (epera : F → ℤ → F) (fuel : ℕ)
    (inp : COSInput) (hdet : inp.det = "NUV") :
    spectrifyCOS epera fuel inp "stsci" = .ok
      ⟨(cosNuvLine inp).map Int.ofNat, cosNuvXdisp inp,
       (inp.wavelength.zip ((cosNuvLine inp).map Int.ofNat)).map
         (fun p => epera (F.fin p.1) p.2)⟩ := by
  simp only [spectrifyCOS, hdet]
  rfl

/-- Reduction of the COS annotator: stsci policy on the FUV detector. -/
theorem spectrifyCOS_stsci_fuv (epera : F → ℤ → F) (fuel : ℕ)
    (inp : COSInput) (hdet : inp.det = "FUV") :
    spectrifyCOS epera fuel inp "stsci" = .ok
      ⟨(if inp.segment.back = 'A' then List.replicate inp.time.length 0
         else List.replicate inp.time.length 1),
       inp.yfull.map (fun yj => F.fin (yj - (inp.spLoc + inp.spOff))),
       (inp.wavelength.zip
         (if inp.segment.back = 'A' then List.replicate inp.time.length 0
          else List.replicate inp.time.length 1)).map
         (fun p => epera (F.fin p.1) p.2)⟩ := by
  simp only [spectrifyCOS, hdet]
  rfl

/-- Reduction of the COS annotator: median policy on the FUV detector. -/
theorem spectrifyCOS_median_fuv (epera : F → ℤ → F) (fuel : ℕ)
    (inp : COSInput) (hdet : inp.det = "FUV") :
    spectrifyCOS epera fuel inp "median" = .ok
      ⟨(if inp.segment.back = 'A' then List.replicate inp.time.length 0
         else List.replicate inp.time.length 1),
       medianTrace inp.xfull inp.yfull inp.talen2 8,
       (inp.wavelength.zip
         (if inp.segment.back = 'A' then List.replicate inp.time.length 0
          else List.replicate inp.time.length 1)).map
         (fun p => epera (F.fin p.1) p.2)⟩ := by
  simp only [spectrifyCOS, hdet]
  rfl

/-- Reduction of the COS annotator: lya policy on the FUV detector, when
the centroid iteration terminates. -/
theorem spectrifyCOS_lya_fuv (epera : F → ℤ → F) (fuel : ℕ)
    (inp : COSInput) (r : List F) (hdet : inp.det = "FUV")
    (hlya : lyaTrace fuel (inp.wavelength.map F.fin) (inp.yfull.map F.fin)
      inp.talen3 = some r) :
    spectrifyCOS epera fuel inp "lya" = .ok
      ⟨(if inp.segment.back = 'A' then List.replicate inp.time.length 0
         else List.replicate inp.time.length 1),
       r,
       (inp.wavelength.zip
         (if inp.segment.back = 'A' then List.replicate inp.time.length 0
          else List.replicate inp.time.length 1)).map
         (fun p => epera (F.fin p.1) p.2)⟩ := by
  simp only [spectrifyCOS, hdet, hlya]
  rfl

/-- Every COS output column of a successful run has one entry per photon
(well-formed table: all input columns share the event count). -/
theorem spectrifyCOS_ok_lengths (epera : F → ℤ → F) (fuel : ℕ)
    (inp : COSInput) (tl : String) (ccols : COSColumns)
    (hx : inp.xfull.length = inp.time.length)
    (hy : inp.yfull.length = inp.time.length)
    (hw : inp.wavelength.length = inp.time.length)
    (hok : spectrifyCOS epera fuel inp tl = .ok ccols) :
    ccols.order.length = inp.time.length
    ∧ ccols.xdisp.length = inp.time.length
    ∧ ccols.epera.length = inp.time.length := by
  by_cases h1 : tl = "stsci"
  · subst h1
    by_cases hdet : inp.det = "NUV"
    · rw [spectrifyCOS_stsci_nuv epera fuel inp hdet] at hok
      simp only [Except.ok.injEq] at hok
      rw [← hok]
      refine ⟨?_, ?_, ?_⟩
      · rw [List.length_map]
        simp only [cosNuvLine, List.length_map, List.length_range]
        exact hy
      · simp only [cosNuvXdisp, List.length_map, List.length_range]
        exact hy
      · rw [List.length_map, List.length_zip, List.length_map]
        simp only [cosNuvLine, List.length_map, List.length_range]
        rw [hw, hy]
        exact min_self _
    · by_cases hfuv : inp.det = "FUV"
      · rw [spectrifyCOS_stsci_fuv epera fuel inp hfuv] at hok
        simp only [Except.ok.injEq] at hok
        rw [← hok]
        by_cases hseg : inp.segment.back = 'A' <;>
          simp [hseg, hy, hw]
      · simp [spectrifyCOS, hdet, hfuv] at hok
  · by_cases h2 : tl = "median"
    · subst h2
      by_cases hdet : inp.det = "NUV"
      · simp [spectrifyCOS, hdet] at hok
      · by_cases hfuv : inp.det = "FUV"
        · rw [spectrifyCOS_median_fuv epera fuel inp hfuv] at hok
          simp only [Except.ok.injEq] at hok
          rw [← hok]
          have hml := medianTrace_length inp.xfull inp.yfull inp.talen2 8
            (by omega)
          by_cases hseg : inp.segment.back = 'A' <;>
            simp [hseg, hy, hw, hml]
        · simp [spectrifyCOS, hdet, hfuv] at hok
    · by_cases h3 : tl = "lya"
      · subst h3
        by_cases hdet : inp.det = "NUV"
        · simp [spectrifyCOS, hdet] at hok
        · by_cases hfuv : inp.det = "FUV"
          · cases hlya : lyaTrace fuel (inp.wavelength.map F.fin)
                (inp.yfull.map F.fin) inp.talen3 with
            | none => simp [spectrifyCOS, hdet, hfuv, hlya] at hok
            | some r =>
              rw [spectrifyCOS_lya_fuv epera fuel inp r hfuv hlya] at hok
              simp only [Except.ok.injEq] at hok
              rw [← hok]
              have hrl := lyaTrace_length _ _ _ _ _ hlya
              simp only [List.length_map] at hrl
              by_cases hseg : inp.segment.back = 'A' <;>
                simp [hseg, hy, hw, hrl]
          · cases hlya : lyaTrace fuel (inp.wavelength.map F.fin)
                (inp.yfull.map F.fin) inp.talen3 with
            | none => simp [spectrifyCOS, hdet, hfuv, hlya] at hok
            | some r => simp [spectrifyCOS, hdet, hfuv, hlya] at hok
      · by_cases hdet : inp.det = "NUV"
        · simp [spectrifyCOS, hdet, h1] at hok
        · by_cases hfuv : inp.det = "FUV"
          · simp [spectrifyCOS, hdet, hfuv, h1, h2, h3] at hok
          · simp [spectrifyCOS, hdet, hfuv, h1, h2, h3] at hok

/-- Claim C8 (confirmed): for every photon table accepted by either
annotator (well-formed: all input columns share the event count), each
appended output array has exactly one entry per input photon, computed
positionally — the annotators never filter or reorder events. -/
theorem annotation_length_preserving
    (epera : F → ℤ → F) (epera1 : F → F) (fuelC fuelS : ℕ)
    (g : NPRandomState) (cos : COSInput) (tlC : String) (ccols : COSColumns)
    (stis : STISInput) (tlS : String) (tbl : STISTableAfter)
    (scols : STISColumns)
    (hx : cos.xfull.length = cos.time.length)
    (hy : cos.yfull.length = cos.time.length)
    (hw : cos.wavelength.length = cos.time.length)
    (hcok : spectrifyCOS epera fuelC cos tlC = .ok ccols)
    (hs1 : stis.axis2.length = stis.axis1.length)
    (hsok : spectrifySTIS epera epera1 fuelS g stis tlS = .ok (tbl, scols)) :
    (ccols.order.length = cos.time.length
     ∧ ccols.xdisp.length = cos.time.length
     ∧ ccols.epera.length = cos.time.length)
    ∧ (scols.wavelength.length = stis.axis1.length
       ∧ scols.xdisp.length = stis.axis1.length
       ∧ scols.epera.length = stis.axis1.length
       ∧ scols.order.length = stis.axis1.length
       ∧ scols.dq.length = stis.axis1.length) := by
  refine ⟨spectrifyCOS_ok_lengths epera fuelC cos tlC ccols hx hy hw hcok, ?_⟩
  have hxlen := stisXList_length g stis
  have hylen := stisYList_length g stis
  rcases Nat.lt_trichotomy stis.orders.length 1 with horder | horder | horder
  · -- Norders = 0: no successful run exists
    exfalso
    have h0 : stis.orders.length = 0 := by omega
    unfold spectrifySTIS at hsok
    rw [if_neg (by omega)] at hsok
    cases hts : stis.tscal1 with
    | none => rw [hts] at hsok; exact absurd hsok (by simp)
    | some ts =>
      rw [hts] at hsok
      simp only at hsok
      rw [if_neg (by omega), if_neg (by omega)] at hsok
      exact absurd hsok (by simp)
  · -- single order
    have hsc := spectrifySTIS_ok_single epera epera1 fuelS g stis tlS tbl
      scols horder hsok
    have := stisSingleCols_ok_lengths epera1 fuelS stis (stisXList g stis)
      (stisYList g stis) tlS scols (by omega) hsc
    omega
  · -- multiple orders: only the stsci policy reaches ok
    by_cases htl : tlS = "stsci"
    · subst htl
      cases hts : stis.tscal1 with
      | none =>
        exfalso
        unfold spectrifySTIS at hsok
        rw [if_neg (by simp), hts] at hsok
        exact absurd hsok (by simp)
      | some ts =>
        have hmc := spectrifySTIS_ok_multi epera epera1 fuelS g stis ts tbl
          scols hts horder hsok
        have := stisMultiCols_lengths epera stis (stisXList g stis)
          (stisYList g stis)
        rw [← hmc] at this
        omega
    · exfalso
      unfold spectrifySTIS at hsok
      rw [if_pos ⟨horder, htl⟩] at hsok
      exact absurd hsok (by simp)


/-- Witness for C8 on concrete COS FUV and STIS two-order exposures. -/
theorem annotation_length_preserving_witness :
    ((⟨[0], [F.fin 2], [F.fin 7]⟩ : COSColumns).order.length
        = cfgCosFuvW.time.length
     ∧ (⟨[0], [F.fin 2], [F.fin 7]⟩ : COSColumns).xdisp.length
        = cfgCosFuvW.time.length
     ∧ (⟨[0], [F.fin 2], [F.fin 7]⟩ : COSColumns).epera.length
        = cfgCosFuvW.time.length)
    ∧ ((⟨[F.fin (19295/16)], [F.fin (5/8)], [F.fin 7], [1], [F.fin 0]⟩ :
          STISColumns).wavelength.length = cfgStisW.axis1.length
       ∧ (⟨[F.fin (19295/16)], [F.fin (5/8)], [F.fin 7], [1], [F.fin 0]⟩ :
          STISColumns).xdisp.length = cfgStisW.axis1.length
       ∧ (⟨[F.fin (19295/16)], [F.fin (5/8)], [F.fin 7], [1], [F.fin 0]⟩ :
          STISColumns).epera.length = cfgStisW.axis1.length
       ∧ (⟨[F.fin (19295/16)], [F.fin (5/8)], [F.fin 7], [1], [F.fin 0]⟩ :
          STISColumns).order.length = cfgStisW.axis1.length
       ∧ (⟨[F.fin (19295/16)], [F.fin (5/8)], [F.fin 7], [1], [F.fin 0]⟩ :
          STISColumns).dq.length = cfgStisW.axis1.length) :=
  annotation_length_preserving eperaK eperaK1 3 3 ⟨8, 1⟩ cfgCosFuvW "stsci"
    ⟨[0], [F.fin 2], [F.fin 7]⟩ cfgStisW "stsci" ⟨[6], [2], [10], none⟩
    ⟨[F.fin (19295/16)], [F.fin (5/8)], [F.fin 7], [1], [F.fin 0]⟩
    rfl rfl rfl (by with_unfolding_all rfl) rfl (by with_unfolding_all rfl)


/-! ## Claim C1 -/

/-- The per-photon signed distances of photon `j` to the COS NUV traces
(`td['yfull'][j] - yextr`, `spectrify.py:63`). -/
def cosNuvDist (inp : COSInput) (j : ℕ) : List ℚ :=
  inp.nuvTraces.map (fun ye => inp.yfull.getD j 0 - ye)

/-- The per-photon signed distances of photon `j` to the STIS order trace
interpolants, evaluated at the photon's dequantized x
(`y - yint(x)`, `spectrify.py:139`). -/
def stisDist (g : NPRandomState) (inp : STISInput) (j : ℕ) : List ℚ :=
  inp.orders.map (fun o => (stisYList g inp).getD j 0
    - (stisInterpTrace inp o ((stisXList g inp).getD j 0)).toQ)

theorem cosNuvLine_length (inp : COSInput) :
    (cosNuvLine inp).length = inp.yfull.length := by
  simp [cosNuvLine]

/-- The NUV `np.argmin` column of photon `j` is the argmin of the absolute
distance vector. -/
theorem cosNuvLine_getD (inp : COSInput) (j : ℕ) (hj : j < inp.yfull.length) :
    (cosNuvLine inp).getD j 0
      = argminF (((cosNuvDist inp j).map (fun d => |d|)).map F.fin) := by
  unfold cosNuvLine
  rw [getD_range_map _ _ _ _ hj]
  congr 1
  unfold cosNuvXdisps cosNuvDist
  rw [List.map_map, List.map_map, List.map_map]
  apply List.map_congr_left
  intro ye _
  simp only [Function.comp]
  rw [getD_map_lt (fun yj => yj - ye) inp.yfull j 0 0 hj]
  rfl

/-- The NUV gathered `xdisp` of photon `j` is its signed distance to the
chosen trace. -/
theorem cosNuvXdisp_getD (inp : COSInput) (j k : ℕ)
    (hj : j < inp.yfull.length) (hk : k < inp.nuvTraces.length)
    (hline : (cosNuvLine inp).getD j 0 = k) :
    (cosNuvXdisp inp).getD j F.nan = F.fin ((cosNuvDist inp j).getD k 0) := by
  unfold cosNuvXdisp
  rw [getD_range_map _ _ _ _ hj, hline]
  unfold cosNuvXdisps
  rw [getD_map_lt (fun ye => inp.yfull.map (fun yj => yj - ye))
    inp.nuvTraces k [] 0 hk]
  rw [getD_map_lt (fun yj => yj - inp.nuvTraces.getD k 0) inp.yfull j 0 0 hj]
  unfold cosNuvDist
  rw [getD_map_lt (fun ye => inp.yfull.getD j 0 - ye) inp.nuvTraces k 0 0 hk]

/-- The STIS multi-order argmin column of photon `j` is the argmin of the
absolute distance vector, when the photon is in the interpolation domain. -/
theorem stisLine_getD (g : NPRandomState) (inp : STISInput) (j : ℕ)
    (hj : j < (stisXList g inp).length)
    (hy : (stisYList g inp).length = (stisXList g inp).length)
    (hdom : ∀ o ∈ inp.orders,
      (stisInterpTrace inp o ((stisXList g inp).getD j 0)).isFin = true) :
    (stisLine inp (stisXList g inp) (stisYList g inp)).getD j 0
      = argminF (((stisDist g inp j).map (fun d => |d|)).map F.fin) := by
  unfold stisLine
  rw [getD_range_map _ _ _ _ hj]
  congr 1
  unfold stisRows stisDist
  rw [List.map_map, List.map_map, List.map_map]
  apply List.map_congr_left
  intro o ho
  simp only [Function.comp]
  have hzl : j < ((stisYList g inp).zip (stisXList g inp)).length := by
    rw [List.length_zip, hy]
    omega
  rw [getD_map_lt (fun p => F.sub (F.fin p.1)
    (stisInterpTrace inp o p.2)) _ j F.nan (0, 0) hzl]
  rw [getD_zip_lt _ _ j (0, 0) 0 0 (by omega) hj]
  obtain ⟨v, hv⟩ : ∃ v, stisInterpTrace inp o
      ((stisXList g inp).getD j 0) = F.fin v :=
    ⟨_, F.isFin_toQ (hdom o ho)⟩
  rw [hv]
  simp [F.toQ, F.sub, F.abs]

/-- The STIS multi-order gathered `xdisp` of photon `j` is its signed
distance to the chosen order's trace. -/
theorem stisMulti_xdisp_getD (epera : F → ℤ → F) (g : NPRandomState)
    (inp : STISInput) (j k : ℕ)
    (hj : j < (stisXList g inp).length)
    (hy : (stisYList g inp).length = (stisXList g inp).length)
    (hk : k < inp.orders.length)
    (hline : (stisLine inp (stisXList g inp) (stisYList g inp)).getD j 0 = k)
    (hdomk : (stisInterpTrace inp (inp.orders.getD k default)
      ((stisXList g inp).getD j 0)).isFin = true) :
    (stisMultiCols epera inp (stisXList g inp) (stisYList g inp)).xdisp.getD
      j F.nan = F.fin ((stisDist g inp j).getD k 0) := by
  show ((List.range (stisXList g inp).length).map (fun j =>
    ((stisRows inp (stisXList g inp) (stisYList g inp)).getD
      ((stisLine inp (stisXList g inp) (stisYList g inp)).getD j 0) []).getD
      j F.nan)).getD j F.nan = F.fin ((stisDist g inp j).getD k 0)
  rw [getD_range_map _ _ _ _ hj, hline]
  unfold stisRows
  rw [getD_map_lt (fun o => ((stisYList g inp).zip (stisXList g inp)).map
    (fun p => F.sub (F.fin p.1) (stisInterpTrace inp o p.2)))
    inp.orders k [] default hk]
  have hzl : j < ((stisYList g inp).zip (stisXList g inp)).length := by
    rw [List.length_zip, hy]
    omega
  rw [getD_map_lt (fun p => F.sub (F.fin p.1)
    (stisInterpTrace inp (inp.orders.getD k default) p.2)) _ j F.nan
    (0, 0) hzl]
  rw [getD_zip_lt _ _ j (0, 0) 0 0 (by omega) hj]
  unfold stisDist
  rw [getD_map_lt (fun o => (stisYList g inp).getD j 0
    - (stisInterpTrace inp o ((stisXList g inp).getD j 0)).toQ)
    inp.orders k 0 default hk]
  obtain ⟨v, hv⟩ : ∃ v, stisInterpTrace inp (inp.orders.getD k default)
      ((stisXList g inp).getD j 0) = F.fin v := ⟨_, F.isFin_toQ hdomk⟩
  rw [hv]
  simp [F.toQ, F.sub]

/-- The STIS multi-order `order` column of photon `j` is the chosen order's
`sporder`. -/
theorem stisMulti_order_getD (epera : F → ℤ → F) (g : NPRandomState)
    (inp : STISInput) (j : ℕ) (hj : j < (stisXList g inp).length) :
    (stisMultiCols epera inp (stisXList g inp) (stisYList g inp)).order.getD
      j 0 = (inp.orders.getD
        ((stisLine inp (stisXList g inp) (stisYList g inp)).getD j 0)
        default).sporder := by
  show ((stisLine inp (stisXList g inp) (stisYList g inp)).map
    (fun l => (inp.orders.getD l default).sporder)).getD j 0
    = (inp.orders.getD
        ((stisLine inp (stisXList g inp) (stisYList g inp)).getD j 0)
        default).sporder
  have hl : j < (stisLine inp (stisXList g inp) (stisYList g inp)).length := by
    simp [stisLine]
    omega
  rw [getD_map_lt (fun l => (inp.orders.getD l default).sporder) _ j 0 0 hl]


/-- Claim C1 (confirmed): in both multi-trace geometries — COS NUV
(`spectrify.py:60-68`) and STIS with more than one order
(`spectrify.py:137-144`) — each photon's assigned order is the candidate
whose trace value at the photon's x is closest to the photon's y in
absolute cross-dispersion distance, ties broken by the lowest candidate
index (`np.argmin` keeps the first minimum), and the recorded `xdisp` is
that minimal signed distance `y - trace`.  The STIS photon is assumed to be
inside the interpolation domain (all trace interpolants finite at its x;
the grid is shared by all orders). -/
theorem nearest_trace_assignment
    (eperaC : F → ℤ → F) (fuelC : ℕ) (cos : COSInput) (j : ℕ)
    (ccols : COSColumns)
    (eperaS : F → ℤ → F) (eperaS1 : F → F) (fuelS : ℕ) (g : NPRandomState)
    (stis : STISInput) (j2 : ℕ) (tbl : STISTableAfter) (scols : STISColumns)
    (ts : ℚ)
    (hdet : cos.det = "NUV")
    (hcok : spectrifyCOS eperaC fuelC cos "stsci" = .ok ccols)
    (hj : j < cos.yfull.length)
    (hne : cos.nuvTraces ≠ [])
    (hts : stis.tscal1 = some ts)
    (h2 : 1 < stis.orders.length)
    (hsok : spectrifySTIS eperaS eperaS1 fuelS g stis "stsci" = .ok (tbl, scols))
    (hj2 : j2 < (stisXList g stis).length)
    (hlen : stis.axis2.length = stis.axis1.length)
    (hdom : ∀ o ∈ stis.orders,
      (stisInterpTrace stis o ((stisXList g stis).getD j2 0)).isFin = true) :
    (∃ k, k < cos.nuvTraces.length
      ∧ ccols.order.getD j 0 = Int.ofNat k
      ∧ (∀ i, i < cos.nuvTraces.length →
          |(cosNuvDist cos j).getD k 0| ≤ |(cosNuvDist cos j).getD i 0|)
      ∧ (∀ i, i < k →
          |(cosNuvDist cos j).getD i 0| > |(cosNuvDist cos j).getD k 0|)
      ∧ ccols.xdisp.getD j F.nan = F.fin ((cosNuvDist cos j).getD k 0)
      ∧ (cosNuvDist cos j).getD k 0
          = cos.yfull.getD j 0 - cos.nuvTraces.getD k 0)
    ∧ (∃ k, k < stis.orders.length
      ∧ scols.order.getD j2 0 = (stis.orders.getD k default).sporder
      ∧ (∀ i, i < stis.orders.length →
          |(stisDist g stis j2).getD k 0| ≤ |(stisDist g stis j2).getD i 0|)
      ∧ (∀ i, i < k →
          |(stisDist g stis j2).getD i 0| > |(stisDist g stis j2).getD k 0|)
      ∧ scols.xdisp.getD j2 F.nan = F.fin ((stisDist g stis j2).getD k 0)
      ∧ (stisDist g stis j2).getD k 0
          = (stisYList g stis).getD j2 0
            - (stisInterpTrace stis (stis.orders.getD k default)
                ((stisXList g stis).getD j2 0)).toQ) := by
  constructor
  · -- COS NUV
    rw [spectrifyCOS_stsci_nuv eperaC fuelC cos hdet] at hcok
    simp only [Except.ok.injEq] at hcok
    subst hcok
    have hds_len : (cosNuvDist cos j).length = cos.nuvTraces.length := by
      simp [cosNuvDist]
    have habs_len : ((cosNuvDist cos j).map (fun d => |d|)).length
        = cos.nuvTraces.length := by simp [cosNuvDist]
    have hqs_ne : (cosNuvDist cos j).map (fun d => |d|) ≠ [] := by
      intro h
      have hlen0 := congrArg List.length h
      simp [cosNuvDist] at hlen0
      exact hne hlen0
    obtain ⟨hlt, hmin, hfirst⟩ :=
      argminF_fin_spec ((cosNuvDist cos j).map (fun d => |d|)) hqs_ne
    have hk_lt : argminF (((cosNuvDist cos j).map (fun d => |d|)).map F.fin)
        < cos.nuvTraces.length := by omega
    have hq : ∀ i, i < cos.nuvTraces.length →
        ((cosNuvDist cos j).map (fun d => |d|)).getD i 0
          = |(cosNuvDist cos j).getD i 0| := by
      intro i hi
      rw [getD_map_lt (fun d => |d|) _ i 0 0 (by omega)]
    refine ⟨argminF (((cosNuvDist cos j).map (fun d => |d|)).map F.fin),
      hk_lt, ?_, ?_, ?_, ?_, ?_⟩
    · show ((cosNuvLine cos).map Int.ofNat).getD j 0 = _
      rw [getD_map_lt Int.ofNat _ j 0 0 (by rw [cosNuvLine_length]; omega)]
      rw [cosNuvLine_getD cos j hj]
    · intro i hi
      have h := hmin i (by omega)
      rw [hq _ (by omega), hq i hi] at h
      exact h
    · intro i hi
      have h := hfirst i hi
      rw [hq i (by omega), hq _ (by omega)] at h
      exact h
    · show (cosNuvXdisp cos).getD j F.nan = _
      exact cosNuvXdisp_getD cos j
        (argminF (((cosNuvDist cos j).map (fun d => |d|)).map F.fin)) hj
        hk_lt (cosNuvLine_getD cos j hj)
    · unfold cosNuvDist
      rw [getD_map_lt (fun ye => cos.yfull.getD j 0 - ye) _ _ 0 0
        (by exact hk_lt)]
  · -- STIS multi-order
    have hmc := spectrifySTIS_ok_multi eperaS eperaS1 fuelS g stis ts tbl
      scols hts h2 hsok
    subst hmc
    have hylen : (stisYList g stis).length = (stisXList g stis).length := by
      rw [stisYList_length, stisXList_length, hlen]
    have hds_len : (stisDist g stis j2).length = stis.orders.length := by
      simp [stisDist]
    have habs_len : ((stisDist g stis j2).map (fun d => |d|)).length
        = stis.orders.length := by simp [stisDist]
    have hqs_ne : (stisDist g stis j2).map (fun d => |d|) ≠ [] := by
      intro h
      have hlen0 := congrArg List.length h
      simp [stisDist] at hlen0
      simp [hlen0] at h2
    obtain ⟨hlt, hmin, hfirst⟩ :=
      argminF_fin_spec ((stisDist g stis j2).map (fun d => |d|)) hqs_ne
    have hk_lt : argminF (((stisDist g stis j2).map (fun d => |d|)).map F.fin)
        < stis.orders.length := by omega
    have hq : ∀ i, i < stis.orders.length →
        ((stisDist g stis j2).map (fun d => |d|)).getD i 0
          = |(stisDist g stis j2).getD i 0| := by
      intro i hi
      rw [getD_map_lt (fun d => |d|) _ i 0 0 (by omega)]
    have hline := stisLine_getD g stis j2 hj2 hylen hdom
    have hkmem : stis.orders.getD
        (argminF (((stisDist g stis j2).map (fun d => |d|)).map F.fin))
        default ∈ stis.orders := by
      rw [List.getD_eq_getElem _ _ hk_lt]
      exact List.getElem_mem _
    refine ⟨argminF (((stisDist g stis j2).map (fun d => |d|)).map F.fin),
      hk_lt, ?_, ?_, ?_, ?_, ?_⟩
    · rw [stisMulti_order_getD eperaS g stis j2 hj2, hline]
    · intro i hi
      have h := hmin i (by omega)
      rw [hq _ (by omega), hq i hi] at h
      exact h
    · intro i hi
      have h := hfirst i hi
      rw [hq i (by omega), hq _ (by omega)] at h
      exact h
    · exact stisMulti_xdisp_getD eperaS g stis j2
        (argminF (((stisDist g stis j2).map (fun d => |d|)).map F.fin)) hj2
        hylen hk_lt hline (hdom _ hkmem)
    · unfold stisDist
      rw [getD_map_lt (fun o => (stisYList g stis).getD j2 0
        - (stisInterpTrace stis o ((stisXList g stis).getD j2 0)).toQ)
        _ _ 0 default (by exact hk_lt)]


/-- Witness for C1 on concrete COS NUV (two traces, photon at y=60) and
STIS two-order (photon between the traces at y=10 and y=100) exposures. -/
theorem nearest_trace_assignment_witness :
    (∃ k, k < cfgCosNuvW.nuvTraces.length
      ∧ (⟨[0], [F.fin 10], [F.fin 7]⟩ : COSColumns).order.getD 0 0
          = Int.ofNat k
      ∧ (∀ i, i < cfgCosNuvW.nuvTraces.length →
          |(cosNuvDist cfgCosNuvW 0).getD k 0|
            ≤ |(cosNuvDist cfgCosNuvW 0).getD i 0|)
      ∧ (∀ i, i < k →
          |(cosNuvDist cfgCosNuvW 0).getD i 0|
            > |(cosNuvDist cfgCosNuvW 0).getD k 0|)
      ∧ (⟨[0], [F.fin 10], [F.fin 7]⟩ : COSColumns).xdisp.getD 0 F.nan
          = F.fin ((cosNuvDist cfgCosNuvW 0).getD k 0)
      ∧ (cosNuvDist cfgCosNuvW 0).getD k 0
          = cfgCosNuvW.yfull.getD 0 0 - cfgCosNuvW.nuvTraces.getD k 0)
    ∧ (∃ k, k < cfgStisW.orders.length
      ∧ (⟨[F.fin (19295/16)], [F.fin (5/8)], [F.fin 7], [1], [F.fin 0]⟩ :
          STISColumns).order.getD 0 0
          = (cfgStisW.orders.getD k default).sporder
      ∧ (∀ i, i < cfgStisW.orders.length →
          |(stisDist ⟨8, 1⟩ cfgStisW 0).getD k 0|
            ≤ |(stisDist ⟨8, 1⟩ cfgStisW 0).getD i 0|)
      ∧ (∀ i, i < k →
          |(stisDist ⟨8, 1⟩ cfgStisW 0).getD i 0|
            > |(stisDist ⟨8, 1⟩ cfgStisW 0).getD k 0|)
      ∧ (⟨[F.fin (19295/16)], [F.fin (5/8)], [F.fin 7], [1], [F.fin 0]⟩ :
          STISColumns).xdisp.getD 0 F.nan
          = F.fin ((stisDist ⟨8, 1⟩ cfgStisW 0).getD k 0)
      ∧ (stisDist ⟨8, 1⟩ cfgStisW 0).getD k 0
          = (stisYList ⟨8, 1⟩ cfgStisW).getD 0 0
            - (stisInterpTrace cfgStisW (cfgStisW.orders.getD k default)
                ((stisXList ⟨8, 1⟩ cfgStisW).getD 0 0)).toQ) :=
  nearest_trace_assignment eperaK 3 cfgCosNuvW 0 ⟨[0], [F.fin 10], [F.fin 7]⟩
    eperaK eperaK1 3 ⟨8, 1⟩ cfgStisW 0 ⟨[6], [2], [10], none⟩
    ⟨[F.fin (19295/16)], [F.fin (5/8)], [F.fin 7], [1], [F.fin 0]⟩ 2
    rfl (by with_unfolding_all rfl) (by decide) (by decide) rfl (by decide)
    (by with_unfolding_all rfl) (by with_unfolding_all decide) rfl
    (by with_unfolding_all decide)

end Spectrify
